import Mathlib

/-!
Shallow embedding of `prometheus-nvml-exporter` (`src/main.rs`) and proofs
about its specification claims.

Modelling conventions:
* Machine integers (`u32`, `u64`, `i64`) are modelled as `Nat`/`Int`.
  Where Rust's unsigned wrap-around matters (the `u64` subtraction and the
  atomic counter addition) the reduction modulo `2^64` is written explicitly;
  this models release-mode (wrapping) semantics, a debug build would abort
  on the same inputs.
* Fallible hardware reads (`nvml_wrapper` calls returning `Result`) are
  modelled as `Except Err` values stored in a `Device` record.
* The process-wide prometheus registry is modelled as explicit state: three
  association lists (integer gauges, floating gauges, integer counters)
  keyed by `(metric name, label values)`.  `get_metric_with_label_values`
  creates a series with value `0` when absent ("touch"), exactly as the
  prometheus vectors do; `f64` gauge values are modelled as `Rat`.
* Early-return (`?`) propagation is modelled by step functions of type
  `Registry → Registry × Except Err Unit`: on error the registry reached so
  far is kept (no rollback), mirroring mutation of the global registry.
-/

namespace NvmlExporter

/-- Error values (`Box<dyn std::error::Error>` payloads), modelled as strings. -/
abbrev Err := String

/-- Error test on `Except`, mirrors Rust `Result::is_err`. -/
def isErr : Except ε α → Bool
  | Except.error _ => true
  | Except.ok _ => false

/-- The `nvml_wrapper::enum_wrappers::device::PerformanceState` enum: sixteen numbered
performance states plus `Unknown`. -/
inductive PerformanceState
  | Zero | One | Two | Three | Four | Five | Six | Seven
  | Eight | Nine | Ten | Eleven | Twelve | Thirteen | Fourteen | Fifteen
  | Unknown
deriving DecidableEq, Fintype

/-- One physical device as seen through the `nvml_wrapper` device-query
interface: each read may fail independently (`src/main.rs` uses
`Device::uuid/name/pci_info/memory_info/fan_speed/temperature/performance_state/`
`power_usage/enforced_power_limit/total_energy_consumption/pcie_replay_counter`).
`memoryInfo` is the `(free, used, total)` byte triple. -/
structure Device where
  uuid : Except Err String
  name : Except Err String
  pciBusId : Except Err String
  memoryInfo : Except Err (Nat × Nat × Nat)
  fanSpeed : Nat → Except Err Nat
  temperature : Except Err Nat
  performanceState : Except Err PerformanceState
  powerUsage : Except Err Nat
  enforcedPowerLimit : Except Err Nat
  totalEnergyConsumption : Except Err Nat
  pcieReplayCounter : Except Err Nat

/-- The fan-probe loop of `MetricDevice::new` (`src/main.rs:74-79`):
`loop { if i > 10_000 || device.fan_speed(i).is_err() { break i }; i += 1 }`,
started at `i`. -/
def fanProbe (device : Device) (i : Nat) : Nat :=
  if h : 10000 < i ∨ isErr (device.fanSpeed i) = true then i
  else fanProbe device (i + 1)
termination_by 10001 - i
decreasing_by
  push_neg at h
  omega

/-- The `struct MetricDevice` (`src/main.rs:64-68`): device handle plus cached
identity labels `[uuid, name, pci bus id]` and the probed `fan_count`. -/
structure MetricDevice where
  device : Device
  labels : String × String × String
  fan_count : Nat

/-- Constructor `MetricDevice::new` (`src/main.rs:71-83`): probes the fan count, then
reads `uuid()?`, `name()?`, `pci_info()?.bus_id` in that order; any identity
read failure fails construction. -/
def MetricDevice.new (device : Device) : Except Err MetricDevice := do
  let fc := fanProbe device 0
  let u ← device.uuid
  let n ← device.name
  let p ← device.pciBusId
  pure { device := device, labels := (u, n, p), fan_count := fc }

/-- Method `MetricDevice::labels` (`src/main.rs:84-86`): the identity label values
as a list. -/
def MetricDevice.labelList (md : MetricDevice) : List String :=
  [md.labels.1, md.labels.2.1, md.labels.2.2]

/-- The exhaustive match table of `MetricDevice::performance_state`
(`src/main.rs:89-107`). -/
def perfStateToInt : PerformanceState → Int
  | .Zero => 0
  | .One => 1
  | .Two => 2
  | .Three => 3
  | .Four => 4
  | .Five => 5
  | .Six => 6
  | .Seven => 7
  | .Eight => 8
  | .Nine => 9
  | .Ten => 10
  | .Eleven => 11
  | .Twelve => 12
  | .Thirteen => 13
  | .Fourteen => 14
  | .Fifteen => 15
  | .Unknown => -1

/-- Method `MetricDevice::performance_state` (`src/main.rs:87-108`): read the state
enum, map it through the table. -/
def MetricDevice.performance_state (md : MetricDevice) : Except Err Int :=
  match md.device.performanceState with
  | Except.error e => Except.error e
  | Except.ok s => Except.ok (perfStateToInt s)

/-! ### Association lists: the registry's series maps -/

/-- Lookup in an association list. -/
def alGet [DecidableEq K] : List (K × V) → K → Option V
  | [], _ => none
  | (k0, v0) :: rest, k => if k0 = k then some v0 else alGet rest k

/-- Insert-or-update in an association list (update in place, append when
absent). -/
def alSet [DecidableEq K] : List (K × V) → K → V → List (K × V)
  | [], k, v => [(k, v)]
  | (k0, v0) :: rest, k, v =>
    if k0 = k then (k0, v) :: rest else (k0, v0) :: alSet rest k v

/-- A metric series key: metric name plus label values
(prometheus `MetricVec` identity). -/
abbrev SeriesKey := String × List String

/-- The prometheus registry state relevant to this program: the
`IntGaugeVec`s, the (`f64`) `GaugeVec`s, and the `IntCounterVec`s of
`src/main.rs:21-62`, each a map from series key to current value. -/
structure Registry where
  intGauges : List (SeriesKey × Int)
  gauges : List (SeriesKey × Rat)
  counters : List (SeriesKey × Nat)
deriving DecidableEq

/-- The registry before any series has been created. -/
def emptyRegistry : Registry := ⟨[], [], []⟩

/-- The constant `2^64`, the `u64` modulus. -/
def two64 : Nat := 18446744073709551616

/-- Rust `u64` subtraction `a - b` with release-mode wrap-around semantics
(the delta computation of `src/main.rs:149` and `:156`). -/
def u64sub (a b : Nat) : Nat := (a % two64 + two64 - b % two64) % two64

/-- Rust `u64 -> i64` `try_into` (the memory-gauge conversions of
`src/main.rs:113,116,119`): fails for values `≥ 2^63`. -/
def i64ofU64 (n : Nat) : Except Err Int :=
  if n < 9223372036854775808 then Except.ok (n : Int)
  else Except.error "out of range integral type conversion attempted"

/-! ### Series keys used by `update` -/

def memFreeKey (md : MetricDevice) : SeriesKey :=
  ("nvml_memory_free_bytes", md.labelList)
def memUsedKey (md : MetricDevice) : SeriesKey :=
  ("nvml_memory_used_bytes", md.labelList)
def memTotalKey (md : MetricDevice) : SeriesKey :=
  ("nvml_memory_total_bytes", md.labelList)
def fanKey (md : MetricDevice) (i : Nat) : SeriesKey :=
  ("nvml_fan_speed", md.labelList ++ [Nat.repr i])
def tempKey (md : MetricDevice) : SeriesKey :=
  ("nvml_temp", md.labelList)
def perfKey (md : MetricDevice) : SeriesKey :=
  ("nvml_performance_state", md.labelList)
def powerUsageKey (md : MetricDevice) : SeriesKey :=
  ("nvml_power_usage_current_mw", md.labelList)
def powerMaxKey (md : MetricDevice) : SeriesKey :=
  ("nvml_power_usage_max_mw", md.labelList)
def energyKey (md : MetricDevice) : SeriesKey :=
  ("nvml_power_used_total_mj", md.labelList)
def pcieKey (md : MetricDevice) : SeriesKey :=
  ("nvml_pci_replay", md.labelList)

/-! ### Registry operations (the prometheus access contract) -/

/-- Operation `IntGaugeVec::get_metric_with_label_values`: create the series at `0`
when absent. -/
def intGaugeTouch (r : Registry) (k : SeriesKey) : Registry :=
  { r with intGauges :=
      match alGet r.intGauges k with
      | some _ => r.intGauges
      | none => alSet r.intGauges k 0 }

/-- Operation `IntGauge::set` on the series obtained by
`get_metric_with_label_values` (create-then-set). -/
def intGaugeSet (r : Registry) (k : SeriesKey) (v : Int) : Registry :=
  { r with intGauges := alSet r.intGauges k v }

/-- Operation `GaugeVec::get_metric_with_label_values`: create the series at `0`
when absent. -/
def gaugeTouch (r : Registry) (k : SeriesKey) : Registry :=
  { r with gauges :=
      match alGet r.gauges k with
      | some _ => r.gauges
      | none => alSet r.gauges k 0 }

/-- Operation `Gauge::set` on the series obtained by `get_metric_with_label_values`. -/
def gaugeSet (r : Registry) (k : SeriesKey) (v : Rat) : Registry :=
  { r with gauges := alSet r.gauges k v }

/-- Operation `IntCounterVec::get_metric_with_label_values` followed by `get()`:
create at `0` when absent, return the current value and the new map. -/
def counterGetOrCreate (cs : List (SeriesKey × Nat)) (k : SeriesKey) :
    Nat × List (SeriesKey × Nat) :=
  match alGet cs k with
  | some v => (v, cs)
  | none => (0, alSet cs k 0)

/-- Operation `IntCounter::inc_by` on the series obtained by
`get_metric_with_label_values`: `fetch_add` with `u64` wrap-around. -/
def counterIncBy (cs : List (SeriesKey × Nat)) (k : SeriesKey) (d : Nat) :
    List (SeriesKey × Nat) :=
  let p := counterGetOrCreate cs k
  alSet p.2 k ((p.1 + d) % two64)

/-- The current value of a counter series, `0` when the series does not
exist yet. -/
def counterAt (r : Registry) (k : SeriesKey) : Nat :=
  (alGet r.counters k).getD 0

/-! ### The update pass (`MetricDevice::update`, `src/main.rs:109-158`)

Each statement of the Rust function becomes one step of type
`Registry → Registry × Except Err Unit`; `?` propagation is the
short-circuiting of `runSteps`.  Within a statement, the metric handle
(`get_metric_with_label_values`, which creates the series) is obtained
before the argument of `set` is evaluated, so a failing read leaves the
freshly created series at its zero value. -/

/-- Step 1 (`src/main.rs:110-119`): read the memory info triple, then set
the three memory gauges; each `set` argument goes through a fallible
`u64 → i64` conversion evaluated after the handle is obtained. -/
def memStep (md : MetricDevice) (r : Registry) : Registry × Except Err Unit :=
  match md.device.memoryInfo with
  | Except.error e => (r, Except.error e)
  | Except.ok (free, used, total) =>
    let r1 := intGaugeTouch r (memFreeKey md)
    match i64ofU64 free with
    | Except.error e => (r1, Except.error e)
    | Except.ok fv =>
      let r2 := intGaugeSet r1 (memFreeKey md) fv
      let r3 := intGaugeTouch r2 (memUsedKey md)
      match i64ofU64 used with
      | Except.error e => (r3, Except.error e)
      | Except.ok uv =>
        let r4 := intGaugeSet r3 (memUsedKey md) uv
        let r5 := intGaugeTouch r4 (memTotalKey md)
        match i64ofU64 total with
        | Except.error e => (r5, Except.error e)
        | Except.ok tv => (intGaugeSet r5 (memTotalKey md) tv, Except.ok ())

/-- The fan loop body over a list of fan indices (`src/main.rs:120-126`):
for each index, obtain the fan gauge handle, read the fan speed, set the
gauge to `raw / 100`. -/
def setFans (md : MetricDevice) : List Nat → Registry → Registry × Except Err Unit
  | [], r => (r, Except.ok ())
  | i :: rest, r =>
    let r1 := gaugeTouch r (fanKey md i)
    match md.device.fanSpeed i with
    | Except.error e => (r1, Except.error e)
    | Except.ok v => setFans md rest (gaugeSet r1 (fanKey md i) ((v : Rat) / 100))

/-- Step 2: `for i in 0..self.fan_count { ... }`. -/
def fansStep (md : MetricDevice) (r : Registry) : Registry × Except Err Unit :=
  setFans md (List.range md.fan_count) r

/-- Step 3 (`src/main.rs:127-133`): temperature gauge. -/
def tempStep (md : MetricDevice) (r : Registry) : Registry × Except Err Unit :=
  let r1 := gaugeTouch r (tempKey md)
  match md.device.temperature with
  | Except.error e => (r1, Except.error e)
  | Except.ok t => (gaugeSet r1 (tempKey md) (t : Rat), Except.ok ())

/-- Step 4 (`src/main.rs:134-136`): performance-state gauge. -/
def perfStep (md : MetricDevice) (r : Registry) : Registry × Except Err Unit :=
  let r1 := intGaugeTouch r (perfKey md)
  match md.performance_state with
  | Except.error e => (r1, Except.error e)
  | Except.ok v => (intGaugeSet r1 (perfKey md) v, Except.ok ())

/-- Step 5 (`src/main.rs:137-139`): current power usage gauge
(`u32 as i64`, exact). -/
def powerUsageStep (md : MetricDevice) (r : Registry) : Registry × Except Err Unit :=
  let r1 := intGaugeTouch r (powerUsageKey md)
  match md.device.powerUsage with
  | Except.error e => (r1, Except.error e)
  | Except.ok v => (intGaugeSet r1 (powerUsageKey md) (v : Int), Except.ok ())

/-- Step 6 (`src/main.rs:140-142`): enforced power limit gauge. -/
def powerMaxStep (md : MetricDevice) (r : Registry) : Registry × Except Err Unit :=
  let r1 := intGaugeTouch r (powerMaxKey md)
  match md.device.enforcedPowerLimit with
  | Except.error e => (r1, Except.error e)
  | Except.ok v => (intGaugeSet r1 (powerMaxKey md) (v : Int), Except.ok ())

/-- Step 7 (`src/main.rs:143-149`): read the previous registry value of the
energy counter (creating the series at `0`), read the hardware cumulative
energy (`u64`, the `try_into` to `u64` is the identity), and increment the
counter by the `u64` difference. -/
def energyStep (md : MetricDevice) (r : Registry) : Registry × Except Err Unit :=
  let p := counterGetOrCreate r.counters (energyKey md)
  let r1 : Registry := { r with counters := p.2 }
  match md.device.totalEnergyConsumption with
  | Except.error e => (r1, Except.error e)
  | Except.ok cur =>
    ({ r1 with counters := counterIncBy r1.counters (energyKey md) (u64sub cur p.1) },
     Except.ok ())

/-- Step 8 (`src/main.rs:150-156`): same delta-and-increment procedure for
the PCIe replay counter (`u32` reading widened to `u64`, exact). -/
def pcieStep (md : MetricDevice) (r : Registry) : Registry × Except Err Unit :=
  let p := counterGetOrCreate r.counters (pcieKey md)
  let r1 : Registry := { r with counters := p.2 }
  match md.device.pcieReplayCounter with
  | Except.error e => (r1, Except.error e)
  | Except.ok cur =>
    ({ r1 with counters := counterIncBy r1.counters (pcieKey md) (u64sub cur p.1) },
     Except.ok ())

/-- Sequential execution of steps with `?`-style short-circuiting: on the
first error, stop and keep the registry reached so far. -/
def runSteps : List (Registry → Registry × Except Err Unit) → Registry →
    Registry × Except Err Unit
  | [], r => (r, Except.ok ())
  | s :: ss, r =>
    match s r with
    | (r1, Except.ok _) => runSteps ss r1
    | (r1, Except.error e) => (r1, Except.error e)

/-- The statements of `MetricDevice::update` in program order. -/
def updateSteps (md : MetricDevice) : List (Registry → Registry × Except Err Unit) :=
  [memStep md, fansStep md, tempStep md, perfStep md,
   powerUsageStep md, powerMaxStep md, energyStep md, pcieStep md]

/-- Method `MetricDevice::update` (`src/main.rs:109-158`). -/
def MetricDevice.update (md : MetricDevice) (r : Registry) :
    Registry × Except Err Unit :=
  runSteps (updateSteps md) r

/-- The inner sampling pass of `main` (`src/main.rs:186-188`):
`for dev in &devices { dev.update()?; }` — update every handle in
enumeration order, propagating the first failure. -/
def updateAll : List MetricDevice → Registry → Registry × Except Err Unit
  | [], r => (r, Except.ok ())
  | d :: ds, r =>
    match d.update r with
    | (r1, Except.ok _) => updateAll ds r1
    | (r1, Except.error e) => (r1, Except.error e)

/-- One wake-up of the collection loop as seen by `main`'s `?` operators:
an update failure is returned from `main` (process termination), success
yields the new registry. -/
def samplingIteration (ds : List MetricDevice) (r : Registry) : Except Err Registry :=
  match updateAll ds r with
  | (r1, Except.ok _) => Except.ok r1
  | (_, Except.error e) => Except.error e

/-! ### Topology discovery and the adaptive scheduler (`main`,
`src/main.rs:161-190`) -/

/-- The `Nvml` subsystem handle as consumed by `main` once initialized:
device count and lookup by index, each fallible.  Initialization itself
(`Nvml::init()`, `src/main.rs:170`) is fallible too; its outcome is the
`Except Err Nvml` argument of `discover`. -/
structure Nvml where
  deviceCount : Except Err Nat
  deviceByIndex : Nat → Except Err Device

/-- The discovery phase (`src/main.rs:170-176`): `Nvml::init()?` (the
`initResult` argument is the outcome of initializing the subsystem, and
its failure propagates first), then enumerate `0..device_count`, collect
the raw devices (first failure wins), then construct a `MetricDevice` for
each (first failure wins). -/
def discover (initResult : Except Err Nvml) : Except Err (List MetricDevice) := do
  let nvml ← initResult
  let n ← nvml.deviceCount
  let raws ← (List.range n).mapM nvml.deviceByIndex
  raws.mapM MetricDevice.new

/-- The refresh-interval update of `src/main.rs:177-181`, on the state
`(lastdevices, refresh_interval in seconds)` given the newly discovered
device count: unchanged count doubles the interval (capped at 3600 s),
a changed count resets it to 30 s; the count is recorded. -/
def schedStep (s : Nat × Nat) (n : Nat) : Nat × Nat :=
  (n, if s.1 = n then min (s.2 * 2) 3600 else 30)

/-- The scheduler state at process start (`src/main.rs:166-167`):
`lastdevices = 0`, `refresh_interval = 30 s`. -/
def initSched : Nat × Nat := (0, 30)

/-- The scheduler state after a sequence of discovery phases with the given
device counts. -/
def schedRun (counts : List Nat) : Nat × Nat :=
  counts.foldl schedStep initSched

/-! ## Concrete devices and registries used as witnesses -/

/-- A device all of whose reads succeed and whose fan sensors never fail. -/
def allOkFanDevice : Device where
  uuid := Except.ok "GPU-0"
  name := Except.ok "Test GPU"
  pciBusId := Except.ok "0000:01:00.0"
  memoryInfo := Except.ok (0, 0, 0)
  fanSpeed := fun _ => Except.ok 50
  temperature := Except.ok 0
  performanceState := Except.ok PerformanceState.Unknown
  powerUsage := Except.ok 0
  enforcedPowerLimit := Except.ok 0
  totalEnergyConsumption := Except.ok 0
  pcieReplayCounter := Except.ok 0

/-- A device whose fan sensor `i` fails for every `i ≥ 3`. -/
def failAt3Device : Device :=
  { allOkFanDevice with
    fanSpeed := fun i => if i < 3 then Except.ok 40 else Except.error "NotSupported" }

/-- Variant of `allOkFanDevice` with prescribed cumulative-energy and PCIe-replay
readings. -/
def sampleDevice (e rp : Nat) : Device :=
  { allOkFanDevice with
    totalEnergyConsumption := Except.ok e
    pcieReplayCounter := Except.ok rp }

/-- A concrete handle around a device (identity labels fixed, one fan). -/
def mdOf (d : Device) : MetricDevice where
  device := d
  labels := ("GPU-0", "Test GPU", "0000:01:00.0")
  fan_count := 1

/-- Concrete handle with prescribed counter readings. -/
def mdW (e rp : Nat) : MetricDevice := mdOf (sampleDevice e rp)

/-- A registry holding earlier counter samples `energy = 100`,
`pcie replay = 3` for the witness device. -/
def rC1 : Registry :=
  ⟨[], [], [(energyKey (mdW 140 7), 100), (pcieKey (mdW 140 7), 3)]⟩

/-- The counter-regression scenario: the registry has already mirrored
energy value 10 and PCIe replay count 3, the hardware now reads 5 and 1. -/
def mdC4 : MetricDevice := mdW 5 1

/-- Registry state for the regression scenario. -/
def rC4 : Registry := ⟨[], [], [(energyKey mdC4, 10), (pcieKey mdC4, 3)]⟩

/-- A device whose temperature read fails (every other read succeeds). -/
def tempFailDevice : Device :=
  { allOkFanDevice with temperature := Except.error "TempReadFail" }

/-- Handle around the temperature-failing device. -/
def mdT : MetricDevice := mdOf tempFailDevice

/-- Registry after the memory and fan steps of an update pass of `mdT`
starting from the empty registry. -/
def rT0 : Registry :=
  ⟨[(memFreeKey mdT, 0), (memUsedKey mdT, 0), (memTotalKey mdT, 0)],
   [(fanKey mdT 0, (50 : Rat) / 100)], []⟩

/-- Registry `rT0` after the temperature step has created (touched) the temperature
series and then failed. -/
def rT1 : Registry :=
  ⟨[(memFreeKey mdT, 0), (memUsedKey mdT, 0), (memTotalKey mdT, 0)],
   [(fanKey mdT 0, (50 : Rat) / 100), (tempKey mdT, 0)], []⟩

/-- A device whose uuid read fails. -/
def badUuidDevice : Device :=
  { allOkFanDevice with uuid := Except.error "UuidFail" }

/-- An `Nvml` subsystem exposing one device whose identity read fails. -/
def nvmlBad : Nvml := ⟨Except.ok 1, fun _ => Except.ok badUuidDevice⟩

/-- Decimal digit list of a natural number, most significant digit first:
the specification of `Nat.repr` (which models Rust's decimal
`format!("{}", i)` for the fan label), in a fuel-free form suitable for
induction.  Used to prove that distinct fan indices yield distinct label
strings. -/
def decRepr (n : Nat) : List Char :=
  if n < 10 then [Nat.digitChar n]
  else decRepr (n / 10) ++ [Nat.digitChar (n % 10)]
termination_by n
decreasing_by
  omega

/-- The device used by the end-to-end pass witness: two fans reading 73 %,
fixed memory, temperature, power, state and counter readings. -/
def deviceC8 : Device where
  uuid := Except.ok "GPU-8"
  name := Except.ok "Witness GPU"
  pciBusId := Except.ok "0000:02:00.0"
  memoryInfo := Except.ok (1000, 2000, 3000)
  fanSpeed := fun _ => Except.ok 73
  temperature := Except.ok 55
  performanceState := Except.ok PerformanceState.Two
  powerUsage := Except.ok 120000
  enforcedPowerLimit := Except.ok 250000
  totalEnergyConsumption := Except.ok 98765
  pcieReplayCounter := Except.ok 2

/-- Handle around `deviceC8` with two probed fans. -/
def mdC8 : MetricDevice where
  device := deviceC8
  labels := ("GPU-8", "Witness GPU", "0000:02:00.0")
  fan_count := 2

/-! ## Proofs -/

/-! ### Association lists -/

theorem alGet_alSet_self [DecidableEq K] (m : List (K × V)) (k : K) (v : V) :
    alGet (alSet m k v) k = some v := by
  induction m with
  | nil => simp [alGet, alSet]
  | cons p rest ih =>
    rcases p with ⟨k0, v0⟩
    by_cases h : k0 = k
    · simp [alGet, alSet, h]
    · simp [alGet, alSet, h, ih]

theorem alGet_alSet_ne [DecidableEq K] (m : List (K × V)) (k k2 : K) (v : V)
    (h : k ≠ k2) : alGet (alSet m k v) k2 = alGet m k2 := by
  induction m with
  | nil => simp [alGet, alSet, h]
  | cons p rest ih =>
    rcases p with ⟨k0, v0⟩
    by_cases h0 : k0 = k
    · subst h0
      simp [alGet, alSet, h]
    · simp [alGet, alSet, h0, ih]

theorem counterGetOrCreate_fst (cs : List (SeriesKey × Nat)) (k : SeriesKey) :
    (counterGetOrCreate cs k).1 = (alGet cs k).getD 0 := by
  unfold counterGetOrCreate
  rcases h : alGet cs k with _ | v <;> simp [h]

theorem counterGetOrCreate_alGet_self (cs : List (SeriesKey × Nat)) (k : SeriesKey) :
    alGet (counterGetOrCreate cs k).2 k = some ((counterGetOrCreate cs k).1) := by
  unfold counterGetOrCreate
  rcases h : alGet cs k with _ | v
  · simp [alGet_alSet_self]
  · simp [h]

theorem counterGetOrCreate_alGet_ne (cs : List (SeriesKey × Nat)) (k k2 : SeriesKey)
    (h : k ≠ k2) : alGet (counterGetOrCreate cs k).2 k2 = alGet cs k2 := by
  unfold counterGetOrCreate
  rcases hg : alGet cs k with _ | v
  · simp [alGet_alSet_ne _ _ _ _ h]
  · simp

theorem counterGetOrCreate_of_some (cs : List (SeriesKey × Nat)) (k : SeriesKey)
    (v : Nat) (h : alGet cs k = some v) : counterGetOrCreate cs k = (v, cs) := by
  unfold counterGetOrCreate
  rw [h]

theorem counterIncBy_alGet_ne (cs : List (SeriesKey × Nat)) (k k2 : SeriesKey)
    (d : Nat) (h : k ≠ k2) : alGet (counterIncBy cs k d) k2 = alGet cs k2 := by
  unfold counterIncBy
  rw [alGet_alSet_ne _ _ _ _ h, counterGetOrCreate_alGet_ne _ _ _ h]

/-! ### `u64` arithmetic -/

theorem u64sub_of_le (prev cur : Nat) (h1 : prev ≤ cur) (h2 : cur < two64) :
    u64sub cur prev = cur - prev := by
  unfold u64sub two64 at *
  omega

theorem u64sub_of_regress (cur prev : Nat) (h1 : cur < prev) (h2 : prev < two64) :
    u64sub cur prev = two64 - (prev - cur) := by
  unfold u64sub two64 at *
  omega

/-- The value written by the delta-and-increment procedure: read the
previous value (creating the series), increment by the `u64` difference.
For a non-regressed reading the series ends exactly at the hardware
value. -/
theorem counterIncBy_result (cs : List (SeriesKey × Nat)) (k : SeriesKey)
    (cur : Nat) (hlt : cur < two64) (hge : (alGet cs k).getD 0 ≤ cur) :
    alGet (counterIncBy (counterGetOrCreate cs k).2 k
      (u64sub cur (counterGetOrCreate cs k).1)) k = some cur := by
  have hfst := counterGetOrCreate_fst cs k
  have hself := counterGetOrCreate_alGet_self cs k
  unfold counterIncBy
  rw [counterGetOrCreate_of_some _ _ _ hself]
  have hged : (counterGetOrCreate cs k).1 ≤ cur := by rw [hfst]; exact hge
  rw [u64sub_of_le _ _ hged hlt]
  have harith : ((counterGetOrCreate cs k).1 + (cur - (counterGetOrCreate cs k).1)) % two64
      = cur := by
    rw [Nat.add_sub_cancel' hged]
    exact Nat.mod_eq_of_lt hlt
  dsimp only
  rw [harith, alGet_alSet_self]

/-! ### Step bookkeeping: gauge steps never touch the counters -/

theorem memStep_counters (md : MetricDevice) (r : Registry) :
    ((memStep md r).1).counters = r.counters := by
  unfold memStep intGaugeTouch intGaugeSet
  repeat' split
  all_goals rfl

theorem setFans_counters (md : MetricDevice) (l : List Nat) :
    ∀ r : Registry, ((setFans md l r).1).counters = r.counters := by
  induction l with
  | nil => intro r; rfl
  | cons i rest ih =>
    intro r
    simp only [setFans]
    rcases hf : md.device.fanSpeed i with e | v
    · simp only [hf]
      rfl
    · simp only [hf]
      rw [ih]
      rfl

theorem fansStep_counters (md : MetricDevice) (r : Registry) :
    ((fansStep md r).1).counters = r.counters := setFans_counters md _ r

theorem tempStep_counters (md : MetricDevice) (r : Registry) :
    ((tempStep md r).1).counters = r.counters := by
  unfold tempStep gaugeTouch gaugeSet
  repeat' split
  all_goals rfl

theorem perfStep_counters (md : MetricDevice) (r : Registry) :
    ((perfStep md r).1).counters = r.counters := by
  unfold perfStep intGaugeTouch intGaugeSet
  repeat' split
  all_goals rfl

theorem powerUsageStep_counters (md : MetricDevice) (r : Registry) :
    ((powerUsageStep md r).1).counters = r.counters := by
  unfold powerUsageStep intGaugeTouch intGaugeSet
  repeat' split
  all_goals rfl

theorem powerMaxStep_counters (md : MetricDevice) (r : Registry) :
    ((powerMaxStep md r).1).counters = r.counters := by
  unfold powerMaxStep intGaugeTouch intGaugeSet
  repeat' split
  all_goals rfl

/-! ### Short-circuit sequencing -/

theorem runSteps_cons_of_ok (s : Registry → Registry × Except Err Unit)
    (ss : List (Registry → Registry × Except Err Unit)) (r : Registry)
    (h : (runSteps (s :: ss) r).2 = Except.ok ()) :
    (s r).2 = Except.ok () ∧ runSteps (s :: ss) r = runSteps ss (s r).1 := by
  rcases hs : s r with ⟨r1, e⟩
  rcases e with e | u
  · rw [runSteps, hs] at h
    simp at h
  · cases u
    rw [runSteps, hs]
    simp

theorem energyStep_spec (md : MetricDevice) (r : Registry) (cur : Nat)
    (h : md.device.totalEnergyConsumption = Except.ok cur) :
    (energyStep md r).2 = Except.ok ()
    ∧ ((energyStep md r).1).counters =
        counterIncBy (counterGetOrCreate r.counters (energyKey md)).2 (energyKey md)
          (u64sub cur (counterGetOrCreate r.counters (energyKey md)).1)
    ∧ ((energyStep md r).1).intGauges = r.intGauges
    ∧ ((energyStep md r).1).gauges = r.gauges := by
  unfold energyStep
  rw [h]
  exact ⟨rfl, rfl, rfl, rfl⟩

theorem pcieStep_spec (md : MetricDevice) (r : Registry) (cur : Nat)
    (h : md.device.pcieReplayCounter = Except.ok cur) :
    (pcieStep md r).2 = Except.ok ()
    ∧ ((pcieStep md r).1).counters =
        counterIncBy (counterGetOrCreate r.counters (pcieKey md)).2 (pcieKey md)
          (u64sub cur (counterGetOrCreate r.counters (pcieKey md)).1)
    ∧ ((pcieStep md r).1).intGauges = r.intGauges
    ∧ ((pcieStep md r).1).gauges = r.gauges := by
  unfold pcieStep
  rw [h]
  exact ⟨rfl, rfl, rfl, rfl⟩

theorem energyKey_ne_pcieKey (md : MetricDevice) : energyKey md ≠ pcieKey md := by
  intro h
  have h1 : ("nvml_power_used_total_mj" : String) = "nvml_pci_replay" :=
    congrArg Prod.fst h
  exact absurd h1 (by decide)

/-! ### Fan probing (claim C2) -/

theorem fanProbe_stop (dev : Device) (i : Nat)
    (h : 10000 < i ∨ isErr (dev.fanSpeed i) = true) : fanProbe dev i = i := by
  rw [fanProbe, dif_pos h]

theorem fanProbe_go (dev : Device) (i : Nat)
    (h : ¬(10000 < i ∨ isErr (dev.fanSpeed i) = true)) :
    fanProbe dev i = fanProbe dev (i + 1) := by
  conv_lhs => rw [fanProbe]
  rw [dif_neg h]

theorem fanProbe_le_aux (dev : Device) :
    ∀ fuel i, 10001 - i ≤ fuel → i ≤ 10001 → fanProbe dev i ≤ 10001 := by
  intro fuel
  induction fuel with
  | zero =>
    intro i h1 h2
    have hi : i = 10001 := by omega
    subst hi
    rw [fanProbe_stop dev 10001 (Or.inl (by omega))]
  | succ f ih =>
    intro i h1 h2
    by_cases h : 10000 < i ∨ isErr (dev.fanSpeed i) = true
    · rw [fanProbe_stop dev i h]; exact h2
    · rw [fanProbe_go dev i h]
      push_neg at h
      exact ih (i + 1) (by omega) (by omega)

theorem fanProbe_le (dev : Device) : fanProbe dev 0 ≤ 10001 :=
  fanProbe_le_aux dev 10001 0 (by omega) (by omega)

theorem fanProbe_all_ok_aux (dev : Device)
    (hok : ∀ i, i ≤ 10000 → isErr (dev.fanSpeed i) = false) :
    ∀ fuel i, 10001 - i ≤ fuel → i ≤ 10001 → fanProbe dev i = 10001 := by
  intro fuel
  induction fuel with
  | zero =>
    intro i h1 h2
    have hi : i = 10001 := by omega
    subst hi
    exact fanProbe_stop dev 10001 (Or.inl (by omega))
  | succ f ih =>
    intro i h1 h2
    by_cases hi : i = 10001
    · subst hi; exact fanProbe_stop dev 10001 (Or.inl (by omega))
    · have hle : i ≤ 10000 := by omega
      have h : ¬(10000 < i ∨ isErr (dev.fanSpeed i) = true) := by
        push_neg
        refine ⟨by omega, ?_⟩
        simp [hok i hle]
      rw [fanProbe_go dev i h]
      exact ih (i + 1) (by omega) (by omega)

theorem fanProbe_all_ok (dev : Device)
    (hok : ∀ i, i ≤ 10000 → isErr (dev.fanSpeed i) = false) :
    fanProbe dev 0 = 10001 :=
  fanProbe_all_ok_aux dev hok 10001 0 (by omega) (by omega)

theorem fanProbe_first_fail_aux (dev : Device) (f : Nat) (hf : f ≤ 10000)
    (hok : ∀ i, i < f → isErr (dev.fanSpeed i) = false)
    (hfail : isErr (dev.fanSpeed f) = true) :
    ∀ fuel i, f - i ≤ fuel → i ≤ f → fanProbe dev i = f := by
  intro fuel
  induction fuel with
  | zero =>
    intro i h1 h2
    have hi : i = f := by omega
    subst hi
    exact fanProbe_stop dev i (Or.inr hfail)
  | succ fl ih =>
    intro i h1 h2
    by_cases hi : i = f
    · subst hi; exact fanProbe_stop dev i (Or.inr hfail)
    · have hlt : i < f := by omega
      have h : ¬(10000 < i ∨ isErr (dev.fanSpeed i) = true) := by
        push_neg
        refine ⟨by omega, ?_⟩
        simp [hok i hlt]
      rw [fanProbe_go dev i h]
      exact ih (i + 1) (by omega) (by omega)

/-- C2 counterexample: on a device whose fan sensors never fail, the probe
loop of `MetricDevice::new` stops only when `i > 10_000`, i.e. at
`fan_count = 10001`, exceeding the claimed cap of 10,000. -/
theorem C2_counterexample :
    fanProbe allOkFanDevice 0 = 10001 ∧ ¬fanProbe allOkFanDevice 0 ≤ 10000 := by
  have h := fanProbe_all_ok allOkFanDevice (fun i _ => rfl)
  exact ⟨h, by omega⟩

/-- C2 (amended): handle construction probes fan sensors sequentially from
index 0 and sets `fan_count` to the first failing index when one exists at
or below 10,000; a device whose sensor `i` fails for all `i ≥ 3` yields
`fan_count = 3`; for a never-failing device the loop stops at `i = 10001`
(the guard is `i > 10_000`), so `fan_count` never exceeds 10,001. -/
theorem C2_fan_probe_amended (dev : Device) (f : Nat) (hf : f ≤ 10000)
    (hok : ∀ i, i < f → isErr (dev.fanSpeed i) = false)
    (hfail : isErr (dev.fanSpeed f) = true) :
    fanProbe dev 0 = f ∧ ∀ d : Device, fanProbe d 0 ≤ 10001 :=
  ⟨fanProbe_first_fail_aux dev f hf hok hfail f 0 (by omega) (by omega),
   fun d => fanProbe_le d⟩

/-- C2 witness: the simulated device whose sensor `i` fails for `i ≥ 3`
yields `fan_count = 3`. -/
theorem C2_witness : fanProbe failAt3Device 0 = 3 :=
  (C2_fan_probe_amended failAt3Device 3 (by omega) (by decide) (by decide)).1

/-! ### Adaptive refresh interval (claim C3) -/

theorem schedStep_bounds (s : Nat × Nat) (n : Nat)
    (h1 : 30 ≤ s.2) : 30 ≤ (schedStep s n).2 ∧ (schedStep s n).2 ≤ 3600 := by
  unfold schedStep
  dsimp only
  by_cases h : s.1 = n
  · simp only [h, if_pos rfl, if_true]
    constructor
    · rcases le_total (s.2 * 2) 3600 with hc | hc
      · rw [min_eq_left hc]; omega
      · rw [min_eq_right hc]; omega
    · exact min_le_right _ _
  · simp [h]

theorem schedFold_bounds (l : List Nat) :
    ∀ s : Nat × Nat, 30 ≤ s.2 → s.2 ≤ 3600 →
      30 ≤ (l.foldl schedStep s).2 ∧ (l.foldl schedStep s).2 ≤ 3600 := by
  induction l with
  | nil => intro s h1 h2; exact ⟨h1, h2⟩
  | cons n t ih =>
    intro s h1 h2
    have hb := schedStep_bounds s n h1
    exact ih (schedStep s n) hb.1 hb.2

theorem schedFold_replicate (n : Nat) :
    ∀ (m i : Nat), i ≤ 3600 →
      ((List.replicate m n).foldl schedStep (n, i)).2 = min (i * 2 ^ m) 3600 := by
  intro m
  induction m with
  | zero =>
    intro i hi
    simp [Nat.min_eq_left, hi]
  | succ m ih =>
    intro i hi
    rw [List.replicate_succ, List.foldl_cons]
    have hstep : schedStep (n, i) n = (n, min (i * 2) 3600) := by
      simp [schedStep]
    rw [hstep, ih (min (i * 2) 3600) (min_le_right _ _)]
    rcases le_total (i * 2) 3600 with h | h
    · rw [min_eq_left h]
      congr 1
      ring
    · rw [min_eq_right h]
      have h1 : 3600 ≤ 3600 * 2 ^ m := Nat.le_mul_of_pos_right 3600 (Nat.pos_pow_of_pos m (by omega))
      have h2 : 3600 * 2 ^ m ≤ i * 2 * 2 ^ m := Nat.mul_le_mul_right _ h
      have h3 : i * 2 * 2 ^ m = i * 2 ^ (m + 1) := by ring
      rw [min_eq_right (by omega), min_eq_right (by omega)]

/-- C3: the refresh interval starts at 30 s; an unchanged device count turns
interval `i` into `min (i * 2) 3600`, a changed count resets it to 30 s;
after a count change followed by `m` phases of the same count the interval
is `min (30 * 2^m) 3600` (the sequence 30, 60, 120, …, capped at 3600); and
along every run from process start the interval stays within
`[30 s, 3600 s]`. -/
theorem C3_refresh_interval :
    initSched.2 = 30
    ∧ (∀ counts : List Nat, 30 ≤ (schedRun counts).2 ∧ (schedRun counts).2 ≤ 3600)
    ∧ (∀ s : Nat × Nat, ∀ n, s.1 ≠ n → (schedStep s n).2 = 30)
    ∧ (∀ s : Nat × Nat, ∀ n, s.1 = n → (schedStep s n).2 = min (s.2 * 2) 3600)
    ∧ (∀ s : Nat × Nat, ∀ n m, s.1 ≠ n →
        ((List.replicate m n).foldl schedStep (schedStep s n)).2 =
          min (30 * 2 ^ m) 3600) := by
  refine ⟨rfl, ?_, ?_, ?_, ?_⟩
  · intro counts
    exact schedFold_bounds counts initSched (by norm_num [initSched]) (by norm_num [initSched])
  · intro s n h
    simp [schedStep, h]
  · intro s n h
    simp [schedStep, h]
  · intro s n m h
    have hstep : schedStep s n = (n, 30) := by simp [schedStep, h]
    rw [hstep, schedFold_replicate n m 30 (by omega)]

/-- C3 witness: seven unchanged-count phases after a count change cap the
interval at 3600 s. -/
theorem C3_witness :
    ((List.replicate 7 4).foldl schedStep (schedStep (0, 30) 4)).2 =
      min (30 * 2 ^ 7) 3600 :=
  C3_refresh_interval.2.2.2.2 (0, 30) 4 7 (by omega)

/-! ### Performance-state mapping (claim C6) -/

/-- C6: the performance-state table is total on the 17-value enum, maps the
sixteen numbered states injectively (indeed bijectively) onto `{0..15}`
with `Zero ↦ 0` and `Fifteen ↦ 15`, maps `Unknown` to `-1`, and
`MetricDevice::performance_state` is exactly this table applied to the
enum read from the device. -/
theorem C6_performance_state_mapping :
    (∀ s : PerformanceState, s ≠ PerformanceState.Unknown →
        0 ≤ perfStateToInt s ∧ perfStateToInt s ≤ 15)
    ∧ perfStateToInt PerformanceState.Unknown = -1
    ∧ perfStateToInt PerformanceState.Zero = 0
    ∧ perfStateToInt PerformanceState.Fifteen = 15
    ∧ (∀ s t : PerformanceState, s ≠ PerformanceState.Unknown →
        t ≠ PerformanceState.Unknown → perfStateToInt s = perfStateToInt t → s = t)
    ∧ (∀ k : Fin 16, ∃ s : PerformanceState,
        s ≠ PerformanceState.Unknown ∧ perfStateToInt s = (k : Nat))
    ∧ (∀ md : MetricDevice, ∀ s, md.device.performanceState = Except.ok s →
        md.performance_state = Except.ok (perfStateToInt s)) := by
  refine ⟨by decide, by decide, by decide, by decide, by decide, by decide, ?_⟩
  intro md s h
  simp [MetricDevice.performance_state, h]

/-- C6 witness: the mapping at the concrete states `Unknown` and `Zero`. -/
theorem C6_witness : perfStateToInt PerformanceState.Unknown = -1 :=
  C6_performance_state_mapping.2.1

/-! ### More sequencing lemmas -/

theorem runSteps_cons_ok (s : Registry → Registry × Except Err Unit)
    (ss : List (Registry → Registry × Except Err Unit)) (r r1 : Registry)
    (h : s r = (r1, Except.ok ())) :
    runSteps (s :: ss) r = runSteps ss r1 := by
  rw [runSteps, h]

theorem runSteps_cons_err (s : Registry → Registry × Except Err Unit)
    (ss : List (Registry → Registry × Except Err Unit)) (r r1 : Registry) (e : Err)
    (h : s r = (r1, Except.error e)) :
    runSteps (s :: ss) r = (r1, Except.error e) := by
  rw [runSteps, h]

theorem runSteps_append_ok (l1 l2 : List (Registry → Registry × Except Err Unit))
    (r r1 : Registry) (h : runSteps l1 r = (r1, Except.ok ())) :
    runSteps (l1 ++ l2) r = runSteps l2 r1 := by
  induction l1 generalizing r with
  | nil =>
    rw [runSteps] at h
    cases h
    rfl
  | cons s ss ih =>
    rcases hs : s r with ⟨ra, ea⟩
    rcases ea with e | u
    · rw [runSteps_cons_err s ss r ra e hs] at h
      simp at h
    · cases u
      rw [runSteps_cons_ok s ss r ra hs] at h
      rw [List.cons_append, runSteps_cons_ok s (ss ++ l2) r ra hs]
      exact ih ra h

theorem runSteps_append_err (l1 l2 : List (Registry → Registry × Except Err Unit))
    (r r1 : Registry) (e : Err) (h : runSteps l1 r = (r1, Except.error e)) :
    runSteps (l1 ++ l2) r = (r1, Except.error e) := by
  induction l1 generalizing r with
  | nil =>
    rw [runSteps] at h
    simp at h
  | cons s ss ih =>
    rcases hs : s r with ⟨ra, ea⟩
    rcases ea with ea | u
    · rw [runSteps_cons_err s ss r ra ea hs] at h
      rw [List.cons_append, runSteps_cons_err s (ss ++ l2) r ra ea hs]
      exact h
    · cases u
      rw [runSteps_cons_ok s ss r ra hs] at h
      rw [List.cons_append, runSteps_cons_ok s (ss ++ l2) r ra hs]
      exact ih ra h

theorem runSteps_counters (ss : List (Registry → Registry × Except Err Unit))
    (h : ∀ s ∈ ss, ∀ rr : Registry, ((s rr).1).counters = rr.counters) :
    ∀ r : Registry, ((runSteps ss r).1).counters = r.counters := by
  induction ss with
  | nil => intro r; rfl
  | cons s ss ih =>
    intro r
    rcases hs : s r with ⟨r1, e⟩
    have hc : r1.counters = r.counters := by
      have h0 := h s (List.mem_cons_self s ss) r
      rw [hs] at h0
      exact h0
    rcases e with e | u
    · rw [runSteps_cons_err s ss r r1 e hs]
      exact hc
    · cases u
      rw [runSteps_cons_ok s ss r r1 hs]
      exact (ih (fun s2 hm rr => h s2 (List.mem_cons_of_mem _ hm) rr) r1).trans hc

/-- The six gauge-only statements that precede the counter statements in
`MetricDevice::update`. -/
theorem gaugePrefix_counters (md : MetricDevice) :
    ∀ s ∈ [memStep md, fansStep md, tempStep md, perfStep md,
           powerUsageStep md, powerMaxStep md],
      ∀ rr : Registry, ((s rr).1).counters = rr.counters := by
  intro s hs rr
  simp only [List.mem_cons, List.not_mem_nil, or_false] at hs
  rcases hs with rfl | rfl | rfl | rfl | rfl | rfl
  · exact memStep_counters md rr
  · exact fansStep_counters md rr
  · exact tempStep_counters md rr
  · exact perfStep_counters md rr
  · exact powerUsageStep_counters md rr
  · exact powerMaxStep_counters md rr

/-- Core counter lemma: on a successful update pass whose hardware counter
readings are `E` and `R`, each at least the mirrored registry value, the
registry counters end exactly at the hardware values. -/
theorem update_counters_ok (md : MetricDevice) (r : Registry) (E R : Nat)
    (hE : md.device.totalEnergyConsumption = Except.ok E)
    (hR : md.device.pcieReplayCounter = Except.ok R)
    (hElt : E < two64) (hRlt : R < two64)
    (hEge : counterAt r (energyKey md) ≤ E)
    (hRge : counterAt r (pcieKey md) ≤ R)
    (hok : (md.update r).2 = Except.ok ()) :
    counterAt (md.update r).1 (energyKey md) = E
    ∧ counterAt (md.update r).1 (pcieKey md) = R := by
  have hsplit : updateSteps md =
      [memStep md, fansStep md, tempStep md, perfStep md,
       powerUsageStep md, powerMaxStep md] ++ [energyStep md, pcieStep md] := rfl
  rcases hp : runSteps [memStep md, fansStep md, tempStep md, perfStep md,
      powerUsageStep md, powerMaxStep md] r with ⟨r6, e6⟩
  rcases e6 with e6 | u6
  · exfalso
    have hbad : md.update r = (r6, Except.error e6) := by
      unfold MetricDevice.update
      rw [hsplit]
      exact runSteps_append_err _ _ r r6 e6 hp
    rw [hbad] at hok
    simp at hok
  · cases u6
    have hupd : md.update r = runSteps [energyStep md, pcieStep md] r6 := by
      unfold MetricDevice.update
      rw [hsplit]
      exact runSteps_append_ok _ _ r r6 hp
    have hc6 : r6.counters = r.counters := by
      have h0 := runSteps_counters _ (gaugePrefix_counters md) r
      rw [hp] at h0
      exact h0
    obtain ⟨hen2, henc, _, _⟩ := energyStep_spec md r6 E hE
    rcases hen : energyStep md r6 with ⟨r7, e7⟩
    rw [hen] at hen2 henc
    simp only at hen2 henc
    subst hen2
    obtain ⟨hpc2, hpcc, _, _⟩ := pcieStep_spec md r7 R hR
    rcases hpc : pcieStep md r7 with ⟨r8, e8⟩
    rw [hpc] at hpc2 hpcc
    simp only at hpc2 hpcc
    subst hpc2
    have hfin : md.update r = (r8, Except.ok ()) := by
      rw [hupd, runSteps_cons_ok _ _ _ _ hen, runSteps_cons_ok _ _ _ _ hpc]
      rfl
    rw [hfin]
    have hEgeR6 : (alGet r6.counters (energyKey md)).getD 0 ≤ E := by
      rw [hc6]
      exact hEge
    have h7e : alGet r7.counters (energyKey md) = some E := by
      rw [henc]
      exact counterIncBy_result r6.counters (energyKey md) E hElt hEgeR6
    have h7p : alGet r7.counters (pcieKey md) = alGet r.counters (pcieKey md) := by
      rw [henc, counterIncBy_alGet_ne _ _ _ _ (energyKey_ne_pcieKey md),
        counterGetOrCreate_alGet_ne _ _ _ (energyKey_ne_pcieKey md), hc6]
    have hRgeR7 : (alGet r7.counters (pcieKey md)).getD 0 ≤ R := by
      rw [h7p]
      exact hRge
    constructor
    · show (alGet r8.counters (energyKey md)).getD 0 = E
      rw [hpcc, counterIncBy_alGet_ne _ _ _ _ (Ne.symm (energyKey_ne_pcieKey md)),
        counterGetOrCreate_alGet_ne _ _ _ (Ne.symm (energyKey_ne_pcieKey md)), h7e]
      rfl
    · show (alGet r8.counters (pcieKey md)).getD 0 = R
      rw [hpcc, counterIncBy_result r7.counters (pcieKey md) R hRlt hRgeR7]
      rfl

/-! ### Counter delta accounting (claims C1, C10, C4) -/

/-- C1: on every successful update pass in which each hardware counter
reading (`E` millijoules of energy, `R` PCIe replays) is at least the
registry's mirrored value, the applied increment is exactly the difference
(`u64sub` coincides with plain subtraction), after the pass the registry
counters equal the hardware values, and the counters are non-decreasing
across the pass. -/
theorem C1_counter_delta (md : MetricDevice) (r : Registry) (E R : Nat)
    (hE : md.device.totalEnergyConsumption = Except.ok E)
    (hR : md.device.pcieReplayCounter = Except.ok R)
    (hElt : E < two64) (hRlt : R < two64)
    (hEge : counterAt r (energyKey md) ≤ E)
    (hRge : counterAt r (pcieKey md) ≤ R)
    (hok : (md.update r).2 = Except.ok ()) :
    u64sub E (counterAt r (energyKey md)) = E - counterAt r (energyKey md)
    ∧ u64sub R (counterAt r (pcieKey md)) = R - counterAt r (pcieKey md)
    ∧ counterAt (md.update r).1 (energyKey md) = E
    ∧ counterAt (md.update r).1 (pcieKey md) = R
    ∧ counterAt r (energyKey md) ≤ counterAt (md.update r).1 (energyKey md)
    ∧ counterAt r (pcieKey md) ≤ counterAt (md.update r).1 (pcieKey md) := by
  obtain ⟨h1, h2⟩ := update_counters_ok md r E R hE hR hElt hRlt hEge hRge hok
  refine ⟨u64sub_of_le _ _ hEge hElt, u64sub_of_le _ _ hRge hRlt, h1, h2, ?_, ?_⟩
  · rw [h1]
    exact hEge
  · rw [h2]
    exact hRge

/-- C1 witness: hardware sequence step `100 → 140` (and `3 → 7`): after the
pass the registry counters equal `140` and `7`, a `+40`/`+4` increment. -/
theorem C1_witness :
    counterAt ((mdW 140 7).update rC1).1 (energyKey (mdW 140 7)) = 140
    ∧ counterAt ((mdW 140 7).update rC1).1 (pcieKey (mdW 140 7)) = 7
    ∧ u64sub 140 (counterAt rC1 (energyKey (mdW 140 7))) = 40 := by
  have h := C1_counter_delta (mdW 140 7) rC1 140 7 rfl rfl (by decide) (by decide)
    (by decide) (by decide) rfl
  refine ⟨h.2.2.1, h.2.2.2.1, ?_⟩
  have h40 : counterAt rC1 (energyKey (mdW 140 7)) = 100 := by decide
  rw [h.1, h40]

/-- C10: registry counter series are created at `0`, so on the first
successful update for a device (no energy/PCIe series in the registry yet)
the applied increment is the full hardware reading and the counters end at
the full hardware values. -/
theorem C10_first_sample (md : MetricDevice) (r : Registry) (E R : Nat)
    (hE : md.device.totalEnergyConsumption = Except.ok E)
    (hR : md.device.pcieReplayCounter = Except.ok R)
    (hElt : E < two64) (hRlt : R < two64)
    (hfreshE : alGet r.counters (energyKey md) = none)
    (hfreshR : alGet r.counters (pcieKey md) = none)
    (hok : (md.update r).2 = Except.ok ()) :
    counterAt r (energyKey md) = 0
    ∧ counterAt r (pcieKey md) = 0
    ∧ u64sub E (counterAt r (energyKey md)) = E
    ∧ u64sub R (counterAt r (pcieKey md)) = R
    ∧ counterAt (md.update r).1 (energyKey md) = E
    ∧ counterAt (md.update r).1 (pcieKey md) = R := by
  have hz1 : counterAt r (energyKey md) = 0 := by
    unfold counterAt
    rw [hfreshE]
    rfl
  have hz2 : counterAt r (pcieKey md) = 0 := by
    unfold counterAt
    rw [hfreshR]
    rfl
  obtain ⟨h1, h2⟩ := update_counters_ok md r E R hE hR hElt hRlt
    (by rw [hz1]; exact Nat.zero_le E) (by rw [hz2]; exact Nat.zero_le R) hok
  refine ⟨hz1, hz2, ?_, ?_, h1, h2⟩
  · rw [hz1, u64sub_of_le 0 E (Nat.zero_le E) hElt]
    omega
  · rw [hz2, u64sub_of_le 0 R (Nat.zero_le R) hRlt]
    omega

/-- C10 witness: first pass on the empty registry with readings 100 and 4
publishes full increments from zero. -/
theorem C10_witness :
    counterAt ((mdW 100 4).update emptyRegistry).1 (energyKey (mdW 100 4)) = 100
    ∧ counterAt ((mdW 100 4).update emptyRegistry).1 (pcieKey (mdW 100 4)) = 4 := by
  have h := C10_first_sample (mdW 100 4) emptyRegistry 100 4 rfl rfl (by decide)
    (by decide) rfl rfl rfl
  exact ⟨h.2.2.2.2.1, h.2.2.2.2.2⟩

/-- C4 counterexample: with mirrored value 10 and a fresh hardware reading
of 5, the delta the sampler passes to `inc_by` is the wrapped `u64`
difference `2^64 - 5` — a (huge) non-negative value, not the negative
delta `-5` the claim describes — and the increment silently wraps the
counter from 10 to 5. -/
theorem C4_counterexample :
    counterAt rC4 (energyKey mdC4) = 10
    ∧ mdC4.device.totalEnergyConsumption = Except.ok 5
    ∧ u64sub 5 10 = 18446744073709551611
    ∧ ¬((u64sub 5 10 : Int) < 0)
    ∧ ¬((u64sub 5 10 : Int) = (5 : Int) - 10)
    ∧ counterAt ((energyStep mdC4 rC4).1) (energyKey mdC4) = 5 := by
  refine ⟨by decide, rfl, by decide, by decide, by decide, ?_⟩
  decide

/-- The value left by the delta-and-increment procedure for any `u64`
reading `cur` and any mirrored value below `2^64`, regression included:
the wrapping increment always lands the series exactly at `cur`. -/
theorem counterIncBy_wrap_eq (cs : List (SeriesKey × Nat)) (k : SeriesKey)
    (cur : Nat) (hc : cur < two64) :
    alGet (counterIncBy (counterGetOrCreate cs k).2 k
      (u64sub cur (counterGetOrCreate cs k).1)) k = some cur := by
  have hfst := counterGetOrCreate_fst cs k
  have hself := counterGetOrCreate_alGet_self cs k
  unfold counterIncBy
  rw [counterGetOrCreate_of_some _ _ _ hself]
  dsimp only
  rw [alGet_alSet_self]
  congr 1
  rw [hfst]
  unfold u64sub two64 at *
  omega

/-- C4 (amended): when a hardware counter (energy or PCIe replay) reads
strictly less than the mirrored registry value, the sampler's `u64`
subtraction wraps modulo `2^64`: the value passed to the increment
operation is the non-negative `2^64 - (prev - cur)` (a silent underflow in
release builds; a debug build would abort), the increment itself wraps,
and the counter ends at the regressed hardware value — for the energy
counter and the PCIe replay counter alike. -/
theorem C4_regression_amended (md : MetricDevice) (r : Registry) (cur pcur : Nat)
    (hcur : md.device.totalEnergyConsumption = Except.ok cur)
    (hlt : cur < counterAt r (energyKey md))
    (hprev : counterAt r (energyKey md) < two64)
    (hpcur : md.device.pcieReplayCounter = Except.ok pcur)
    (hplt : pcur < counterAt r (pcieKey md))
    (hpprev : counterAt r (pcieKey md) < two64) :
    u64sub cur (counterAt r (energyKey md)) =
      two64 - (counterAt r (energyKey md) - cur)
    ∧ 0 < u64sub cur (counterAt r (energyKey md))
    ∧ (energyStep md r).2 = Except.ok ()
    ∧ counterAt ((energyStep md r).1) (energyKey md) = cur
    ∧ u64sub pcur (counterAt r (pcieKey md)) =
      two64 - (counterAt r (pcieKey md) - pcur)
    ∧ 0 < u64sub pcur (counterAt r (pcieKey md))
    ∧ (pcieStep md r).2 = Except.ok ()
    ∧ counterAt ((pcieStep md r).1) (pcieKey md) = pcur := by
  obtain ⟨heok, hec, _, _⟩ := energyStep_spec md r cur hcur
  obtain ⟨hpok, hpc, _, _⟩ := pcieStep_spec md r pcur hpcur
  have hwrapE := u64sub_of_regress cur (counterAt r (energyKey md)) hlt hprev
  have hwrapP := u64sub_of_regress pcur (counterAt r (pcieKey md)) hplt hpprev
  refine ⟨hwrapE, ?_, heok, ?_, hwrapP, ?_, hpok, ?_⟩
  · rw [hwrapE]
    unfold two64 at *
    omega
  · show (alGet ((energyStep md r).1).counters (energyKey md)).getD 0 = cur
    rw [hec, counterIncBy_wrap_eq r.counters (energyKey md) cur
      (lt_trans hlt hprev)]
    rfl
  · rw [hwrapP]
    unfold two64 at *
    omega
  · show (alGet ((pcieStep md r).1).counters (pcieKey md)).getD 0 = pcur
    rw [hpc, counterIncBy_wrap_eq r.counters (pcieKey md) pcur
      (lt_trans hplt hpprev)]
    rfl

/-- C4 amended-claim witness: the concrete regressions `10 → 5` on the
energy counter and `3 → 1` on the PCIe replay counter. -/
theorem C4_witness :
    u64sub 5 (counterAt rC4 (energyKey mdC4)) = two64 - 5
    ∧ counterAt ((energyStep mdC4 rC4).1) (energyKey mdC4) = 5
    ∧ u64sub 1 (counterAt rC4 (pcieKey mdC4)) = two64 - 2
    ∧ counterAt ((pcieStep mdC4 rC4).1) (pcieKey mdC4) = 1 := by
  have h := C4_regression_amended mdC4 rC4 5 1 rfl (by decide) (by decide)
    rfl (by decide) (by decide)
  have h10 : counterAt rC4 (energyKey mdC4) = 10 := by decide
  have h3 : counterAt rC4 (pcieKey mdC4) = 3 := by decide
  refine ⟨?_, h.2.2.2.1, ?_, h.2.2.2.2.2.2.2⟩
  · rw [h.1, h10]
  · rw [h.2.2.2.2.1, h3]

/-! ### Error propagation through the update pass (claim C5) -/

theorem updateAll_cons_ok (d : MetricDevice) (ds : List MetricDevice)
    (r r1 : Registry) (h : d.update r = (r1, Except.ok ())) :
    updateAll (d :: ds) r = updateAll ds r1 := by
  rw [updateAll, h]

theorem updateAll_cons_err (d : MetricDevice) (ds : List MetricDevice)
    (r r1 : Registry) (e : Err) (h : d.update r = (r1, Except.error e)) :
    updateAll (d :: ds) r = (r1, Except.error e) := by
  rw [updateAll, h]

theorem updateAll_append_ok (l1 l2 : List MetricDevice) (r r1 : Registry)
    (h : updateAll l1 r = (r1, Except.ok ())) :
    updateAll (l1 ++ l2) r = updateAll l2 r1 := by
  induction l1 generalizing r with
  | nil =>
    rw [updateAll] at h
    cases h
    rfl
  | cons d ds ih =>
    rcases hd : d.update r with ⟨ra, ea⟩
    rcases ea with ea | u
    · rw [updateAll_cons_err d ds r ra ea hd] at h
      simp at h
    · cases u
      rw [updateAll_cons_ok d ds r ra hd] at h
      rw [List.cons_append, updateAll_cons_ok d (ds ++ l2) r ra hd]
      exact ih ra h

/-- C5: the update pass and the collection loop short-circuit on the first
failing read.  If the statements of `MetricDevice::update` split as
`ss1 ++ s :: ss2` where `ss1` all succeed (reaching registry `r0`) and `s`
fails with `e` (leaving registry `r1`, i.e. `r0` plus whatever `s` itself
wrote before failing), then the whole update returns exactly
`(r1, error e)` — the earlier writes remain (no rollback) and the steps of
`ss2` never execute.  Likewise, if the device list splits as
`ds1 ++ d :: ds2` with `ds1` updating successfully and `d.update` failing
with `e`, the whole pass returns `(r1, error e)` and `main`'s loop body
(`samplingIteration`) propagates that error out of `main`, terminating the
process. -/
theorem C5_error_propagation (md : MetricDevice) (mds : List MetricDevice)
    (r : Registry) :
    (∀ (ss1 ss2 : List (Registry → Registry × Except Err Unit))
        (s : Registry → Registry × Except Err Unit) (r0 r1 : Registry) (e : Err),
        updateSteps md = ss1 ++ s :: ss2 →
        runSteps ss1 r = (r0, Except.ok ()) →
        s r0 = (r1, Except.error e) →
        md.update r = (r1, Except.error e))
    ∧ (∀ (ds1 ds2 : List MetricDevice) (d : MetricDevice) (r0 r1 : Registry) (e : Err),
        mds = ds1 ++ d :: ds2 →
        updateAll ds1 r = (r0, Except.ok ()) →
        d.update r0 = (r1, Except.error e) →
        updateAll mds r = (r1, Except.error e)
        ∧ samplingIteration mds r = Except.error e) := by
  constructor
  · intro ss1 ss2 s r0 r1 e hsplit h1 h2
    unfold MetricDevice.update
    rw [hsplit, runSteps_append_ok ss1 (s :: ss2) r r0 h1,
      runSteps_cons_err s ss2 r0 r1 e h2]
  · intro ds1 ds2 d r0 r1 e hsplit h1 h2
    have hAll : updateAll mds r = (r1, Except.error e) := by
      rw [hsplit, updateAll_append_ok ds1 (d :: ds2) r r0 h1,
        updateAll_cons_err d ds2 r0 r1 e h2]
    refine ⟨hAll, ?_⟩
    unfold samplingIteration
    rw [hAll]

/-- C5 witness: a device whose temperature read fails.  The update starting
from the empty registry fails with that error; the registry it leaves
holds exactly the memory gauges and fan gauge set by the earlier steps
(plus the temperature series created at 0 before the failing read), and no
performance/power/counter series. -/
theorem C5_witness :
    mdT.update emptyRegistry = (rT1, Except.error "TempReadFail") :=
  (C5_error_propagation mdT [] emptyRegistry).1
    [memStep mdT, fansStep mdT]
    [perfStep mdT, powerUsageStep mdT, powerMaxStep mdT, energyStep mdT, pcieStep mdT]
    (tempStep mdT) rT0 rT1 "TempReadFail" rfl rfl rfl

/-! ### All-or-nothing discovery (claim C7) -/

theorem except_bind_err (e : Err) (g : α → Except Err β) :
    (Except.error e >>= g : Except Err β) = Except.error e := rfl

theorem except_bind_ok (a : α) (g : α → Except Err β) :
    (Except.ok a >>= g : Except Err β) = g a := rfl

theorem isErr_exists (x : Except Err α) (h : isErr x = true) :
    ∃ e, x = Except.error e := by
  rcases x with e | v
  · exact ⟨e, rfl⟩
  · simp [isErr] at h

theorem mapM_err_of_mem (f : α → Except Err β) (l : List α) (a : α)
    (ha : a ∈ l) (he : isErr (f a) = true) : isErr (l.mapM f) = true := by
  induction l with
  | nil => cases ha
  | cons x xs ih =>
    rw [List.mapM_cons]
    rcases hx : f x with ex | vx
    · rw [except_bind_err]
      rfl
    · rw [except_bind_ok]
      rcases List.mem_cons.mp ha with heq | hmem
      · subst heq
        rw [hx] at he
        simp [isErr] at he
      · obtain ⟨e2, he2⟩ := isErr_exists _ (ih hmem)
        rw [he2, except_bind_err]
        rfl

theorem mapM_ok_length (f : α → Except Err β) :
    ∀ (l : List α) (bs : List β), l.mapM f = Except.ok bs →
      bs.length = l.length := by
  intro l
  induction l with
  | nil =>
    intro bs h
    rw [List.mapM_nil] at h
    have h2 : Except.ok ([] : List β) = Except.ok bs := h
    cases h2
    rfl
  | cons x xs ih =>
    intro bs h
    rw [List.mapM_cons] at h
    rcases hx : f x with ex | vx
    · rw [hx, except_bind_err] at h
      cases h
    · rw [hx, except_bind_ok] at h
      rcases hxs : xs.mapM f with e2 | vs
      · rw [hxs, except_bind_err] at h
        cases h
      · rw [hxs, except_bind_ok] at h
        have h2 : Except.ok (vx :: vs) = Except.ok bs := h
        cases h2
        simp [ih vs hxs]

theorem mapM_ok_mem (f : α → Except Err β) :
    ∀ (l : List α) (bs : List β), l.mapM f = Except.ok bs →
      ∀ a ∈ l, ∀ b, f a = Except.ok b → b ∈ bs := by
  intro l
  induction l with
  | nil =>
    intro bs h a ha
    cases ha
  | cons x xs ih =>
    intro bs h a ha b hb
    rw [List.mapM_cons] at h
    rcases hx : f x with ex | vx
    · rw [hx, except_bind_err] at h
      cases h
    · rw [hx, except_bind_ok] at h
      rcases hxs : xs.mapM f with e2 | vs
      · rw [hxs, except_bind_err] at h
        cases h
      · rw [hxs, except_bind_ok] at h
        have h2 : Except.ok (vx :: vs) = Except.ok bs := h
        cases h2
        rcases List.mem_cons.mp ha with heq | hmem
        · subst heq
          rw [hx] at hb
          cases hb
          exact List.mem_cons_self _ _
        · exact List.mem_cons_of_mem _ (ih vs hxs a hmem b hb)

theorem new_err_of_identity (dev : Device)
    (h : isErr dev.uuid = true ∨ isErr dev.name = true ∨ isErr dev.pciBusId = true) :
    isErr (MetricDevice.new dev) = true := by
  rcases hu : dev.uuid with eu | u
  · simp [MetricDevice.new, hu, except_bind_err, isErr]
  · rcases hn : dev.name with en | nm
    · simp [MetricDevice.new, hu, hn, except_bind_ok, except_bind_err, isErr]
    · rcases hp : dev.pciBusId with ep | p
      · simp [MetricDevice.new, hu, hn, hp, except_bind_ok, except_bind_err, isErr]
      · rw [hu, hn, hp] at h
        simp [isErr] at h

/-- C7: discovery is all-or-nothing.  Handle construction fails when the
uuid, name, or PCI-bus-id read fails; discovery fails when subsystem
initialization fails, when the device count read fails, when any in-range
`device_by_index` fails, or when any handle construction fails; and when
discovery succeeds it returns exactly one handle per enumerated device. -/
theorem C7_all_or_nothing (dev : Device) (nvml : Nvml)
    (initResult : Except Err Nvml) :
    ((isErr dev.uuid = true ∨ isErr dev.name = true ∨ isErr dev.pciBusId = true) →
      isErr (MetricDevice.new dev) = true)
    ∧ (isErr initResult = true → isErr (discover initResult) = true)
    ∧ (isErr nvml.deviceCount = true → isErr (discover (Except.ok nvml)) = true)
    ∧ (∀ n j, nvml.deviceCount = Except.ok n → j < n →
        isErr (nvml.deviceByIndex j) = true →
        isErr (discover (Except.ok nvml)) = true)
    ∧ (∀ n j d, nvml.deviceCount = Except.ok n → j < n →
        nvml.deviceByIndex j = Except.ok d → isErr (MetricDevice.new d) = true →
        isErr (discover (Except.ok nvml)) = true)
    ∧ (∀ n hs, nvml.deviceCount = Except.ok n →
        discover (Except.ok nvml) = Except.ok hs → hs.length = n) := by
  refine ⟨new_err_of_identity dev, ?_, ?_, ?_, ?_, ?_⟩
  · intro h
    obtain ⟨e, he⟩ := isErr_exists _ h
    rw [discover, he, except_bind_err]
    rfl
  · intro h
    obtain ⟨e, he⟩ := isErr_exists _ h
    rw [discover, except_bind_ok, he, except_bind_err]
    rfl
  · intro n j hc hj hfail
    have hm : isErr ((List.range n).mapM nvml.deviceByIndex) = true :=
      mapM_err_of_mem _ _ j (List.mem_range.mpr hj) hfail
    obtain ⟨e, he⟩ := isErr_exists _ hm
    rw [discover, except_bind_ok, hc, except_bind_ok, he, except_bind_err]
    rfl
  · intro n j d hc hj hd hnew
    rcases hraws : (List.range n).mapM nvml.deviceByIndex with er | raws
    · rw [discover, except_bind_ok, hc, except_bind_ok, hraws, except_bind_err]
      rfl
    · have hdm : d ∈ raws :=
        mapM_ok_mem _ _ raws hraws j (List.mem_range.mpr hj) d hd
      obtain ⟨e, he⟩ := isErr_exists _ (mapM_err_of_mem _ _ d hdm hnew)
      rw [discover, except_bind_ok, hc, except_bind_ok, hraws, except_bind_ok, he]
      rfl
  · intro n hs hc hok
    rcases hraws : (List.range n).mapM nvml.deviceByIndex with er | raws
    · rw [discover, except_bind_ok, hc] at hok
      rw [except_bind_ok, hraws, except_bind_err] at hok
      cases hok
    · rw [discover, except_bind_ok, hc] at hok
      rw [except_bind_ok, hraws, except_bind_ok] at hok
      have h1 := mapM_ok_length MetricDevice.new raws hs hok
      have h2 := mapM_ok_length nvml.deviceByIndex (List.range n) raws hraws
      rw [h1, h2, List.length_range]

/-- C7 witness: a failed subsystem initialization makes discovery fail,
and a successfully initialized subsystem exposing one device whose uuid
read fails makes the whole discovery fail too. -/
theorem C7_witness :
    isErr (discover (Except.error "InitFail")) = true
    ∧ isErr (discover (Except.ok nvmlBad)) = true :=
  ⟨(C7_all_or_nothing badUuidDevice nvmlBad (Except.error "InitFail")).2.1 rfl,
   (C7_all_or_nothing badUuidDevice nvmlBad (Except.error "InitFail")).2.2.2.2.1
     1 0 badUuidDevice rfl (by omega) rfl
     (new_err_of_identity badUuidDevice (Or.inl rfl))⟩

/-! ### Decimal representation: distinct fan indices get distinct labels -/

theorem digitChar_inj_lt :
    ∀ a < 10, ∀ b < 10, Nat.digitChar a = Nat.digitChar b → a = b := by
  decide

theorem decRepr_small (n : Nat) (h : n < 10) : decRepr n = [Nat.digitChar n] := by
  rw [decRepr, if_pos h]

theorem decRepr_large (n : Nat) (h : ¬n < 10) :
    decRepr n = decRepr (n / 10) ++ [Nat.digitChar (n % 10)] := by
  conv_lhs => rw [decRepr]
  rw [if_neg h]

theorem toDigitsCore_eq_decRepr :
    ∀ (fuel n : Nat) (ds : List Char), n < 10 ^ fuel → 0 < fuel →
      Nat.toDigitsCore 10 fuel n ds = decRepr n ++ ds := by
  intro fuel
  induction fuel with
  | zero =>
    intro n ds h1 h2
    omega
  | succ f ih =>
    intro n ds h1 h2
    simp only [Nat.toDigitsCore]
    by_cases hdiv : n / 10 = 0
    · have hn : n < 10 := by omega
      rw [if_pos hdiv, decRepr_small n hn, Nat.mod_eq_of_lt hn]
      rfl
    · have hn : ¬n < 10 := by omega
      have hf : 0 < f := by
        rcases Nat.eq_zero_or_pos f with hf0 | hf0
        · subst hf0
          simp at h1
          omega
        · exact hf0
      have hlt : n / 10 < 10 ^ f := by
        apply (Nat.div_lt_iff_lt_mul (by omega : (0 : Nat) < 10)).mpr
        calc n < 10 ^ (f + 1) := h1
        _ = 10 ^ f * 10 := by ring
      rw [if_neg hdiv, ih (n / 10) (Nat.digitChar (n % 10) :: ds) hlt hf,
        decRepr_large n hn, List.append_assoc]
      rfl

theorem repr_eq_decRepr (n : Nat) : Nat.repr n = (decRepr n).asString := by
  have hlt : n < 10 ^ (n + 1) := by
    calc n < 10 ^ n := Nat.lt_pow_self (by omega) n
    _ ≤ 10 ^ (n + 1) := Nat.pow_le_pow_right (by omega) (Nat.le_succ n)
  unfold Nat.repr Nat.toDigits
  rw [toDigitsCore_eq_decRepr (n + 1) n [] hlt (Nat.succ_pos n), List.append_nil]

theorem decRepr_ne_nil (n : Nat) : decRepr n ≠ [] := by
  by_cases h : n < 10
  · rw [decRepr_small n h]
    simp
  · rw [decRepr_large n h]
    simp

theorem decRepr_inj : ∀ m n : Nat, decRepr m = decRepr n → m = n := by
  intro m
  induction m using Nat.strong_induction_on with
  | _ m ih =>
    intro n h
    by_cases hm : m < 10 <;> by_cases hn : n < 10
    · rw [decRepr_small m hm, decRepr_small n hn] at h
      injection h with hh _
      exact digitChar_inj_lt m hm n hn hh
    · exfalso
      rw [decRepr_small m hm, decRepr_large n hn] at h
      have hlen := congrArg List.length h
      rw [List.length_append, List.length_singleton, List.length_singleton] at hlen
      exact decRepr_ne_nil (n / 10) (List.length_eq_zero.mp (by omega))
    · exfalso
      rw [decRepr_large m hm, decRepr_small n hn] at h
      have hlen := congrArg List.length h
      rw [List.length_append, List.length_singleton, List.length_singleton] at hlen
      exact decRepr_ne_nil (m / 10) (List.length_eq_zero.mp (by omega))
    · rw [decRepr_large m hm, decRepr_large n hn] at h
      obtain ⟨h1, h2⟩ := List.append_inj' h (by simp)
      have hdiv : m / 10 = n / 10 := ih (m / 10) (by omega) (n / 10) h1
      injection h2 with hh _
      have hmod : m % 10 = n % 10 :=
        digitChar_inj_lt _ (Nat.mod_lt m (by omega)) _ (Nat.mod_lt n (by omega)) hh
      have hm10 := Nat.div_add_mod m 10
      have hn10 := Nat.div_add_mod n 10
      omega

theorem natRepr_inj (m n : Nat) (h : Nat.repr m = Nat.repr n) : m = n := by
  rw [repr_eq_decRepr, repr_eq_decRepr] at h
  exact decRepr_inj m n (congrArg String.data h)

theorem fanKey_inj (md : MetricDevice) (i j : Nat)
    (h : fanKey md i = fanKey md j) : i = j := by
  have h2 : md.labelList ++ [Nat.repr i] = md.labelList ++ [Nat.repr j] :=
    congrArg Prod.snd h
  have h3 := List.append_cancel_left h2
  injection h3 with hh _
  exact natRepr_inj i j hh

/-! ### One full successful pass from the empty registry (claim C8) -/

theorem key_ne_of_name (k1 k2 : SeriesKey) (h : ¬k1.1 = k2.1) : k1 ≠ k2 :=
  fun he => h (congrArg Prod.fst he)

theorem alGet_cons_ne [DecidableEq K] (m : List (K × V)) (k0 : K) (v0 : V)
    (k : K) (h : k0 ≠ k) : alGet ((k0, v0) :: m) k = alGet m k := by
  simp only [alGet]
  rw [if_neg h]

theorem alSet_absent [DecidableEq K] (m : List (K × V)) (k : K) (v : V)
    (h : alGet m k = none) : alSet m k v = m ++ [(k, v)] := by
  induction m with
  | nil => rfl
  | cons p rest ih =>
    rcases p with ⟨k0, v0⟩
    by_cases h0 : k0 = k
    · rw [alGet] at h
      rw [if_pos h0] at h
      cases h
    · rw [alGet, if_neg h0] at h
      rw [alSet, if_neg h0, ih h]
      rfl

theorem alSet_alSet [DecidableEq K] (m : List (K × V)) (k : K) (v w : V) :
    alSet (alSet m k v) k w = alSet m k w := by
  induction m with
  | nil => simp [alSet]
  | cons p rest ih =>
    rcases p with ⟨k0, v0⟩
    by_cases h0 : k0 = k
    · simp [alSet, h0]
    · simp [alSet, h0, ih]

theorem alGet_append_single_ne [DecidableEq K] (m : List (K × V)) (k : K)
    (v : V) (k2 : K) (h : k ≠ k2) : alGet (m ++ [(k, v)]) k2 = alGet m k2 := by
  induction m with
  | nil =>
    simp only [List.nil_append, alGet]
    rw [if_neg h]
  | cons p rest ih =>
    rcases p with ⟨k0, v0⟩
    by_cases h0 : k0 = k2
    · simp [alGet, h0]
    · simp only [List.cons_append, alGet]
      rw [if_neg h0, if_neg h0]
      exact ih

theorem gauge_touch_set (r : Registry) (k : SeriesKey) (val : Rat)
    (h : alGet r.gauges k = none) :
    (gaugeSet (gaugeTouch r k) k val).gauges = r.gauges ++ [(k, val)]
    ∧ (gaugeSet (gaugeTouch r k) k val).intGauges = r.intGauges
    ∧ (gaugeSet (gaugeTouch r k) k val).counters = r.counters := by
  refine ⟨?_, rfl, rfl⟩
  show alSet (gaugeTouch r k).gauges k val = r.gauges ++ [(k, val)]
  unfold gaugeTouch
  rw [h]
  dsimp only
  rw [alSet_alSet, alSet_absent r.gauges k val h]

theorem intGauge_touch_set (r : Registry) (k : SeriesKey) (val : Int)
    (h : alGet r.intGauges k = none) :
    (intGaugeSet (intGaugeTouch r k) k val).intGauges = r.intGauges ++ [(k, val)]
    ∧ (intGaugeSet (intGaugeTouch r k) k val).gauges = r.gauges
    ∧ (intGaugeSet (intGaugeTouch r k) k val).counters = r.counters := by
  refine ⟨?_, rfl, rfl⟩
  show alSet (intGaugeTouch r k).intGauges k val = r.intGauges ++ [(k, val)]
  unfold intGaugeTouch
  rw [h]
  dsimp only
  rw [alSet_alSet, alSet_absent r.intGauges k val h]

theorem i64ofU64_ok (n : Nat) (h : n < 9223372036854775808) :
    i64ofU64 n = Except.ok (n : Int) := by
  unfold i64ofU64
  rw [if_pos h]

theorem memStep_ok (md : MetricDevice) (r : Registry) (f u t : Nat)
    (hm : md.device.memoryInfo = Except.ok (f, u, t))
    (hf : f < 9223372036854775808) (hu : u < 9223372036854775808)
    (ht : t < 9223372036854775808)
    (h1 : alGet r.intGauges (memFreeKey md) = none)
    (h2 : alGet r.intGauges (memUsedKey md) = none)
    (h3 : alGet r.intGauges (memTotalKey md) = none) :
    (memStep md r).2 = Except.ok ()
    ∧ ((memStep md r).1).intGauges = r.intGauges ++
        [(memFreeKey md, (f : Int)), (memUsedKey md, (u : Int)),
         (memTotalKey md, (t : Int))]
    ∧ ((memStep md r).1).gauges = r.gauges
    ∧ ((memStep md r).1).counters = r.counters := by
  have e1 := intGauge_touch_set r (memFreeKey md) (f : Int) h1
  have hA2 : alGet (intGaugeSet (intGaugeTouch r (memFreeKey md)) (memFreeKey md)
      (f : Int)).intGauges (memUsedKey md) = none := by
    rw [e1.1, alGet_append_single_ne _ _ _ _
      (key_ne_of_name _ _ (by simp [memFreeKey, memUsedKey]))]
    exact h2
  have e2 := intGauge_touch_set _ (memUsedKey md) (u : Int) hA2
  have hB3 : alGet (intGaugeSet (intGaugeTouch (intGaugeSet (intGaugeTouch r
      (memFreeKey md)) (memFreeKey md) (f : Int)) (memUsedKey md)) (memUsedKey md)
      (u : Int)).intGauges (memTotalKey md) = none := by
    rw [e2.1, e1.1,
      alGet_append_single_ne _ _ _ _
        (key_ne_of_name _ _ (by simp [memUsedKey, memTotalKey])),
      alGet_append_single_ne _ _ _ _
        (key_ne_of_name _ _ (by simp [memFreeKey, memTotalKey]))]
    exact h3
  have e3 := intGauge_touch_set _ (memTotalKey md) (t : Int) hB3
  refine ⟨?_, ?_, ?_, ?_⟩ <;>
    simp only [memStep, hm, i64ofU64_ok f hf, i64ofU64_ok u hu, i64ofU64_ok t ht]
  · rw [e3.1, e2.1, e1.1]
    simp [List.append_assoc]
  · rw [e3.2.1, e2.2.1, e1.2.1]
  · rw [e3.2.2, e2.2.2, e1.2.2]

theorem setFans_closed (md : MetricDevice) (v : Nat → Nat) :
    ∀ (l : List Nat) (r : Registry),
      (∀ i ∈ l, md.device.fanSpeed i = Except.ok (v i)) →
      (∀ i ∈ l, alGet r.gauges (fanKey md i) = none) →
      l.Nodup →
      (setFans md l r).2 = Except.ok ()
      ∧ ((setFans md l r).1).gauges =
          r.gauges ++ l.map (fun i => (fanKey md i, (v i : Rat) / 100))
      ∧ ((setFans md l r).1).intGauges = r.intGauges
      ∧ ((setFans md l r).1).counters = r.counters := by
  intro l
  induction l with
  | nil =>
    intro r hok habs hnd
    exact ⟨rfl, by simp [setFans], rfl, rfl⟩
  | cons x xs ih =>
    intro r hok habs hnd
    have hx := hok x (List.mem_cons_self x xs)
    simp only [setFans, hx]
    have ex := gauge_touch_set r (fanKey md x) ((v x : Rat) / 100)
      (habs x (List.mem_cons_self x xs))
    have hnodup := List.nodup_cons.mp hnd
    have habs2 : ∀ i ∈ xs, alGet (gaugeSet (gaugeTouch r (fanKey md x))
        (fanKey md x) ((v x : Rat) / 100)).gauges (fanKey md i) = none := by
      intro i hi
      have hne : fanKey md x ≠ fanKey md i := by
        intro he
        exact hnodup.1 (by rw [fanKey_inj md x i he]; exact hi)
      rw [ex.1, alGet_append_single_ne _ _ _ _ hne]
      exact habs i (List.mem_cons_of_mem _ hi)
    have hih := ih _ (fun i hi => hok i (List.mem_cons_of_mem _ hi)) habs2 hnodup.2
    refine ⟨hih.1, ?_, ?_, ?_⟩
    · rw [hih.2.1, ex.1]
      simp [List.append_assoc]
    · rw [hih.2.2.1, ex.2.1]
    · rw [hih.2.2.2, ex.2.2]

theorem fansStep_closed (md : MetricDevice) (v : Nat → Nat) (r : Registry)
    (hok : ∀ i, i < md.fan_count → md.device.fanSpeed i = Except.ok (v i))
    (habs : ∀ i, i < md.fan_count → alGet r.gauges (fanKey md i) = none) :
    (fansStep md r).2 = Except.ok ()
    ∧ ((fansStep md r).1).gauges =
        r.gauges ++ (List.range md.fan_count).map
          (fun i => (fanKey md i, (v i : Rat) / 100))
    ∧ ((fansStep md r).1).intGauges = r.intGauges
    ∧ ((fansStep md r).1).counters = r.counters :=
  setFans_closed md v (List.range md.fan_count) r
    (fun i hi => hok i (List.mem_range.mp hi))
    (fun i hi => habs i (List.mem_range.mp hi))
    (List.nodup_range md.fan_count)

theorem tempStep_ok (md : MetricDevice) (r : Registry) (T : Nat)
    (ht : md.device.temperature = Except.ok T)
    (habs : alGet r.gauges (tempKey md) = none) :
    (tempStep md r).2 = Except.ok ()
    ∧ ((tempStep md r).1).gauges = r.gauges ++ [(tempKey md, (T : Rat))]
    ∧ ((tempStep md r).1).intGauges = r.intGauges
    ∧ ((tempStep md r).1).counters = r.counters := by
  have e := gauge_touch_set r (tempKey md) (T : Rat) habs
  refine ⟨?_, ?_, ?_, ?_⟩ <;> simp only [tempStep, ht]
  · exact e.1
  · exact e.2.1
  · exact e.2.2

theorem perfStep_ok (md : MetricDevice) (r : Registry) (ps : PerformanceState)
    (hp : md.device.performanceState = Except.ok ps)
    (habs : alGet r.intGauges (perfKey md) = none) :
    (perfStep md r).2 = Except.ok ()
    ∧ ((perfStep md r).1).intGauges = r.intGauges ++ [(perfKey md, perfStateToInt ps)]
    ∧ ((perfStep md r).1).gauges = r.gauges
    ∧ ((perfStep md r).1).counters = r.counters := by
  have hps : md.performance_state = Except.ok (perfStateToInt ps) := by
    unfold MetricDevice.performance_state
    rw [hp]
  have e := intGauge_touch_set r (perfKey md) (perfStateToInt ps) habs
  refine ⟨?_, ?_, ?_, ?_⟩ <;> simp only [perfStep, hps]
  · exact e.1
  · exact e.2.1
  · exact e.2.2

theorem powerUsageStep_ok (md : MetricDevice) (r : Registry) (pu : Nat)
    (hp : md.device.powerUsage = Except.ok pu)
    (habs : alGet r.intGauges (powerUsageKey md) = none) :
    (powerUsageStep md r).2 = Except.ok ()
    ∧ ((powerUsageStep md r).1).intGauges =
        r.intGauges ++ [(powerUsageKey md, (pu : Int))]
    ∧ ((powerUsageStep md r).1).gauges = r.gauges
    ∧ ((powerUsageStep md r).1).counters = r.counters := by
  have e := intGauge_touch_set r (powerUsageKey md) (pu : Int) habs
  refine ⟨?_, ?_, ?_, ?_⟩ <;> simp only [powerUsageStep, hp]
  · exact e.1
  · exact e.2.1
  · exact e.2.2

theorem powerMaxStep_ok (md : MetricDevice) (r : Registry) (pl : Nat)
    (hp : md.device.enforcedPowerLimit = Except.ok pl)
    (habs : alGet r.intGauges (powerMaxKey md) = none) :
    (powerMaxStep md r).2 = Except.ok ()
    ∧ ((powerMaxStep md r).1).intGauges =
        r.intGauges ++ [(powerMaxKey md, (pl : Int))]
    ∧ ((powerMaxStep md r).1).gauges = r.gauges
    ∧ ((powerMaxStep md r).1).counters = r.counters := by
  have e := intGauge_touch_set r (powerMaxKey md) (pl : Int) habs
  refine ⟨?_, ?_, ?_, ?_⟩ <;> simp only [powerMaxStep, hp]
  · exact e.1
  · exact e.2.1
  · exact e.2.2

theorem alGet_fanMap_ne (md : MetricDevice) (g : Nat → Rat) (ks : SeriesKey)
    (hne : ¬ks.1 = "nvml_fan_speed") :
    ∀ l : List Nat, alGet (l.map (fun i => (fanKey md i, g i))) ks = none := by
  intro l
  induction l with
  | nil => rfl
  | cons x xs ih =>
    rw [List.map_cons, alGet_cons_ne]
    · exact ih
    · intro he
      exact hne (by rw [← he]; rfl)

/-- The complete effect of one successful `MetricDevice::update` pass
starting from the empty registry, given the values of all hardware reads:
the registry ends with exactly the three memory gauges, the
performance-state and two power gauges, one fan gauge per index below
`fan_count` holding `raw / 100`, the temperature gauge, and the two
counters at the full first-sample hardware values. -/
theorem update_closed_form (md : MetricDevice) (f u t T pu pl E R : Nat)
    (ps : PerformanceState) (v : Nat → Nat)
    (hm : md.device.memoryInfo = Except.ok (f, u, t))
    (hf : f < 9223372036854775808) (hu : u < 9223372036854775808)
    (ht : t < 9223372036854775808)
    (hfan : ∀ i, i < md.fan_count → md.device.fanSpeed i = Except.ok (v i))
    (htemp : md.device.temperature = Except.ok T)
    (hperf : md.device.performanceState = Except.ok ps)
    (hpu : md.device.powerUsage = Except.ok pu)
    (hpl : md.device.enforcedPowerLimit = Except.ok pl)
    (hE : md.device.totalEnergyConsumption = Except.ok E) (hElt : E < two64)
    (hR : md.device.pcieReplayCounter = Except.ok R) (hRlt : R < two64) :
    (md.update emptyRegistry).2 = Except.ok ()
    ∧ ((md.update emptyRegistry).1).intGauges =
        [(memFreeKey md, (f : Int)), (memUsedKey md, (u : Int)),
         (memTotalKey md, (t : Int)), (perfKey md, perfStateToInt ps),
         (powerUsageKey md, (pu : Int)), (powerMaxKey md, (pl : Int))]
    ∧ ((md.update emptyRegistry).1).gauges =
        (List.range md.fan_count).map (fun i => (fanKey md i, (v i : Rat) / 100))
          ++ [(tempKey md, (T : Rat))]
    ∧ ((md.update emptyRegistry).1).counters =
        [(energyKey md, E), (pcieKey md, R)] := by
  -- Step 1: memory gauges.
  have m1 := memStep_ok md emptyRegistry f u t hm hf hu ht rfl rfl rfl
  rcases hs1 : memStep md emptyRegistry with ⟨r1, o1⟩
  rw [hs1] at m1
  have ho1 : o1 = Except.ok () := m1.1
  subst ho1
  have hIG1 : r1.intGauges = [(memFreeKey md, (f : Int)), (memUsedKey md, (u : Int)),
      (memTotalKey md, (t : Int))] := by
    have h := m1.2.1
    simpa [emptyRegistry] using h
  have hG1 : r1.gauges = [] := m1.2.2.1
  have hC1 : r1.counters = [] := m1.2.2.2
  -- Step 2: fan gauges.
  have m2 := fansStep_closed md v r1 hfan (fun i hi => by rw [hG1]; rfl)
  rcases hs2 : fansStep md r1 with ⟨r2, o2⟩
  rw [hs2] at m2
  have ho2 : o2 = Except.ok () := m2.1
  subst ho2
  have hG2 : r2.gauges =
      (List.range md.fan_count).map (fun i => (fanKey md i, (v i : Rat) / 100)) := by
    have h := m2.2.1
    rw [hG1] at h
    simpa using h
  have hIG2 : r2.intGauges = r1.intGauges := m2.2.2.1
  have hC2 : r2.counters = r1.counters := m2.2.2.2
  -- Step 3: temperature gauge.
  have habs3 : alGet r2.gauges (tempKey md) = none := by
    rw [hG2]
    exact alGet_fanMap_ne md _ (tempKey md) (by simp [tempKey]) _
  have m3 := tempStep_ok md r2 T htemp habs3
  rcases hs3 : tempStep md r2 with ⟨r3, o3⟩
  rw [hs3] at m3
  have ho3 : o3 = Except.ok () := m3.1
  subst ho3
  have hG3 : r3.gauges =
      (List.range md.fan_count).map (fun i => (fanKey md i, (v i : Rat) / 100))
        ++ [(tempKey md, (T : Rat))] := by
    have h := m3.2.1
    rw [hG2] at h
    exact h
  have hIG3 : r3.intGauges = r1.intGauges := (m3.2.2.1).trans hIG2
  have hC3 : r3.counters = r1.counters := (m3.2.2.2).trans hC2
  -- Step 4: performance state gauge.
  have habs4 : alGet r3.intGauges (perfKey md) = none := by
    rw [hIG3, hIG1]
    simp [alGet, memFreeKey, memUsedKey, memTotalKey, perfKey]
  have m4 := perfStep_ok md r3 ps hperf habs4
  rcases hs4 : perfStep md r3 with ⟨r4, o4⟩
  rw [hs4] at m4
  have ho4 : o4 = Except.ok () := m4.1
  subst ho4
  have hIG4 : r4.intGauges = [(memFreeKey md, (f : Int)), (memUsedKey md, (u : Int)),
      (memTotalKey md, (t : Int)), (perfKey md, perfStateToInt ps)] := by
    have h := m4.2.1
    rw [hIG3, hIG1] at h
    simpa using h
  have hG4 : r4.gauges = r3.gauges := m4.2.2.1
  have hC4 : r4.counters = r1.counters := (m4.2.2.2).trans hC3
  -- Step 5: power usage gauge.
  have habs5 : alGet r4.intGauges (powerUsageKey md) = none := by
    rw [hIG4]
    simp [alGet, memFreeKey, memUsedKey, memTotalKey, perfKey, powerUsageKey]
  have m5 := powerUsageStep_ok md r4 pu hpu habs5
  rcases hs5 : powerUsageStep md r4 with ⟨r5, o5⟩
  rw [hs5] at m5
  have ho5 : o5 = Except.ok () := m5.1
  subst ho5
  have hIG5 : r5.intGauges = [(memFreeKey md, (f : Int)), (memUsedKey md, (u : Int)),
      (memTotalKey md, (t : Int)), (perfKey md, perfStateToInt ps),
      (powerUsageKey md, (pu : Int))] := by
    have h := m5.2.1
    rw [hIG4] at h
    simpa using h
  have hG5 : r5.gauges = r3.gauges := (m5.2.2.1).trans hG4
  have hC5 : r5.counters = r1.counters := (m5.2.2.2).trans hC4
  -- Step 6: power limit gauge.
  have habs6 : alGet r5.intGauges (powerMaxKey md) = none := by
    rw [hIG5]
    simp [alGet, memFreeKey, memUsedKey, memTotalKey, perfKey, powerUsageKey,
      powerMaxKey]
  have m6 := powerMaxStep_ok md r5 pl hpl habs6
  rcases hs6 : powerMaxStep md r5 with ⟨r6, o6⟩
  rw [hs6] at m6
  have ho6 : o6 = Except.ok () := m6.1
  subst ho6
  have hIG6 : r6.intGauges = [(memFreeKey md, (f : Int)), (memUsedKey md, (u : Int)),
      (memTotalKey md, (t : Int)), (perfKey md, perfStateToInt ps),
      (powerUsageKey md, (pu : Int)), (powerMaxKey md, (pl : Int))] := by
    have h := m6.2.1
    rw [hIG5] at h
    simpa using h
  have hG6 : r6.gauges = r3.gauges := (m6.2.2.1).trans hG5
  have hC6 : r6.counters = [] := ((m6.2.2.2).trans hC5).trans hC1
  -- Step 7: energy counter.
  have e7 := energyStep_spec md r6 E hE
  rcases hs7 : energyStep md r6 with ⟨r7, o7⟩
  rw [hs7] at e7
  have ho7 : o7 = Except.ok () := e7.1
  subst ho7
  have hC7 : r7.counters = [(energyKey md, E)] := by
    have h := e7.2.1
    rw [hC6] at h
    rw [h]
    have hg : counterGetOrCreate ([] : List (SeriesKey × Nat)) (energyKey md)
        = (0, [(energyKey md, 0)]) := rfl
    rw [hg]
    have hsub : u64sub E 0 = E := by
      rw [u64sub_of_le 0 E (Nat.zero_le E) hElt]
      omega
    rw [hsub]
    simp [counterIncBy, counterGetOrCreate, alGet, alSet]
    exact Nat.mod_eq_of_lt hElt
  have hIG7 : r7.intGauges = r6.intGauges := e7.2.2.1
  have hG7 : r7.gauges = r3.gauges := (e7.2.2.2).trans hG6
  -- Step 8: PCIe replay counter.
  have e8 := pcieStep_spec md r7 R hR
  rcases hs8 : pcieStep md r7 with ⟨r8, o8⟩
  rw [hs8] at e8
  have ho8 : o8 = Except.ok () := e8.1
  subst ho8
  have hC8 : r8.counters = [(energyKey md, E), (pcieKey md, R)] := by
    have h := e8.2.1
    rw [hC7] at h
    rw [h]
    have hg : counterGetOrCreate [(energyKey md, E)] (pcieKey md)
        = (0, [(energyKey md, E), (pcieKey md, 0)]) := by
      simp [counterGetOrCreate, alGet, alSet, energyKey_ne_pcieKey md]
    rw [hg]
    have hsub : u64sub R 0 = R := by
      rw [u64sub_of_le 0 R (Nat.zero_le R) hRlt]
      omega
    rw [hsub]
    simp [counterIncBy, counterGetOrCreate, alGet, alSet, energyKey_ne_pcieKey md]
    exact Nat.mod_eq_of_lt hRlt
  have hIG8 : r8.intGauges = r6.intGauges := (e8.2.2.1).trans hIG7
  have hG8 : r8.gauges = r3.gauges := (e8.2.2.2).trans hG7
  -- Assemble the pass.
  have hfin : md.update emptyRegistry = (r8, Except.ok ()) := by
    unfold MetricDevice.update updateSteps
    rw [runSteps_cons_ok _ _ _ _ hs1, runSteps_cons_ok _ _ _ _ hs2,
      runSteps_cons_ok _ _ _ _ hs3, runSteps_cons_ok _ _ _ _ hs4,
      runSteps_cons_ok _ _ _ _ hs5, runSteps_cons_ok _ _ _ _ hs6,
      runSteps_cons_ok _ _ _ _ hs7, runSteps_cons_ok _ _ _ _ hs8]
    rfl
  rw [hfin]
  exact ⟨rfl, hIG8.trans hIG6, hG8.trans hG3, hC8⟩

theorem alGet_append_left [DecidableEq K] (m1 m2 : List (K × V)) (k : K) (w : V)
    (h : alGet m1 k = some w) : alGet (m1 ++ m2) k = some w := by
  induction m1 with
  | nil => cases h
  | cons p rest ih =>
    rcases p with ⟨k0, v0⟩
    by_cases h0 : k0 = k
    · rw [alGet, if_pos h0] at h
      rw [List.cons_append, alGet, if_pos h0]
      exact h
    · rw [alGet, if_neg h0] at h
      rw [List.cons_append, alGet, if_neg h0]
      exact ih h

theorem alGet_map_fanKey (md : MetricDevice) (g : Nat → Rat) :
    ∀ (l : List Nat) (i : Nat), i ∈ l →
      alGet (l.map (fun j => (fanKey md j, g j))) (fanKey md i) = some (g i) := by
  intro l
  induction l with
  | nil =>
    intro i hi
    cases hi
  | cons x xs ih =>
    intro i hi
    rw [List.map_cons]
    by_cases he : fanKey md x = fanKey md i
    · have hx : x = i := fanKey_inj md x i he
      subst hx
      simp [alGet]
    · rw [alGet_cons_ne _ _ _ _ he]
      rcases List.mem_cons.mp hi with heq | hmem
      · exact absurd (by rw [heq]) he
      · exact ih i hmem

theorem alGet_isSome_mem [DecidableEq K] (m : List (K × V)) (k : K)
    (h : (alGet m k).isSome = true) : ∃ p ∈ m, p.1 = k := by
  induction m with
  | nil => cases h
  | cons p rest ih =>
    rcases p with ⟨k0, v0⟩
    by_cases h0 : k0 = k
    · exact ⟨(k0, v0), List.mem_cons_self _ _, h0⟩
    · rw [alGet_cons_ne _ _ _ _ h0] at h
      obtain ⟨p, hp, hpk⟩ := ih h
      exact ⟨p, List.mem_cons_of_mem _ hp, hpk⟩

/-- C8: after one successful update pass from the empty registry for a
device with `fan_count = k` and the given hardware readings: the fan-speed
series are exactly the fan keys with indices `0..k-1`, each set to the raw
percent reading divided by 100 (the fan-key labelling is injective, so the
series are pairwise distinct); the three memory gauges hold the hardware
byte values unchanged; and every series key carries the device's identity
label triple — exactly, for the 3-label series, and as the first three
labels for the fan series. -/
theorem C8_pass_contents (md : MetricDevice) (f u t T pu pl E R : Nat)
    (ps : PerformanceState) (v : Nat → Nat)
    (hm : md.device.memoryInfo = Except.ok (f, u, t))
    (hf : f < 9223372036854775808) (hu : u < 9223372036854775808)
    (ht : t < 9223372036854775808)
    (hfan : ∀ i, i < md.fan_count → md.device.fanSpeed i = Except.ok (v i))
    (htemp : md.device.temperature = Except.ok T)
    (hperf : md.device.performanceState = Except.ok ps)
    (hpu : md.device.powerUsage = Except.ok pu)
    (hpl : md.device.enforcedPowerLimit = Except.ok pl)
    (hE : md.device.totalEnergyConsumption = Except.ok E) (hElt : E < two64)
    (hR : md.device.pcieReplayCounter = Except.ok R) (hRlt : R < two64) :
    (md.update emptyRegistry).2 = Except.ok ()
    ∧ (∀ i, i < md.fan_count →
        alGet ((md.update emptyRegistry).1).gauges (fanKey md i) =
          some ((v i : Rat) / 100))
    ∧ (∀ ks : SeriesKey, ks.1 = "nvml_fan_speed" →
        (alGet ((md.update emptyRegistry).1).gauges ks).isSome = true →
        ∃ i, i < md.fan_count ∧ ks = fanKey md i)
    ∧ (∀ i j : Nat, fanKey md i = fanKey md j → i = j)
    ∧ alGet ((md.update emptyRegistry).1).intGauges (memFreeKey md) = some (f : Int)
    ∧ alGet ((md.update emptyRegistry).1).intGauges (memUsedKey md) = some (u : Int)
    ∧ alGet ((md.update emptyRegistry).1).intGauges (memTotalKey md) = some (t : Int)
    ∧ (∀ ks : SeriesKey,
        (alGet ((md.update emptyRegistry).1).intGauges ks).isSome = true →
        ks.2 = md.labelList)
    ∧ (∀ ks : SeriesKey,
        (alGet ((md.update emptyRegistry).1).counters ks).isSome = true →
        ks.2 = md.labelList)
    ∧ (∀ ks : SeriesKey,
        (alGet ((md.update emptyRegistry).1).gauges ks).isSome = true →
        List.take 3 ks.2 = md.labelList) := by
  obtain ⟨h1, hIG, hG, hC⟩ := update_closed_form md f u t T pu pl E R ps v
    hm hf hu ht hfan htemp hperf hpu hpl hE hElt hR hRlt
  refine ⟨h1, ?_, ?_, fanKey_inj md, ?_, ?_, ?_, ?_, ?_, ?_⟩
  · intro i hi
    rw [hG]
    exact alGet_append_left _ _ _ _
      (alGet_map_fanKey md _ (List.range md.fan_count) i (List.mem_range.mpr hi))
  · intro ks hname hsome
    rw [hG] at hsome
    obtain ⟨p, hp, hpk⟩ := alGet_isSome_mem _ _ hsome
    rcases List.mem_append.mp hp with hp1 | hp2
    · obtain ⟨i, hi, hpe⟩ := List.mem_map.mp hp1
      refine ⟨i, List.mem_range.mp hi, ?_⟩
      rw [← hpk, ← hpe]
    · exfalso
      have hpt : p = (tempKey md, (T : Rat)) := by
        simpa using hp2
      have : ("nvml_temp" : String) = "nvml_fan_speed" := by
        have h2 : p.1.1 = ks.1 := congrArg Prod.fst hpk
        rw [hpt] at h2
        rw [← hname, ← h2]
        rfl
      exact absurd this (by decide)
  · rw [hIG]
    simp [alGet]
  · rw [hIG]
    simp [alGet, memFreeKey, memUsedKey, memTotalKey]
  · rw [hIG]
    simp [alGet, memFreeKey, memUsedKey, memTotalKey]
  · intro ks hsome
    rw [hIG] at hsome
    obtain ⟨p, hp, hpk⟩ := alGet_isSome_mem _ _ hsome
    simp only [List.mem_cons, List.not_mem_nil, or_false] at hp
    rw [← hpk]
    rcases hp with rfl | rfl | rfl | rfl | rfl | rfl
    all_goals rfl
  · intro ks hsome
    rw [hC] at hsome
    obtain ⟨p, hp, hpk⟩ := alGet_isSome_mem _ _ hsome
    simp only [List.mem_cons, List.not_mem_nil, or_false] at hp
    rw [← hpk]
    rcases hp with rfl | rfl
    all_goals rfl
  · intro ks hsome
    rw [hG] at hsome
    obtain ⟨p, hp, hpk⟩ := alGet_isSome_mem _ _ hsome
    rw [← hpk]
    rcases List.mem_append.mp hp with hp1 | hp2
    · obtain ⟨i, _, hpe⟩ := List.mem_map.mp hp1
      rw [← hpe]
      rfl
    · have hpt : p = (tempKey md, (T : Rat)) := by
        simpa using hp2
      rw [hpt]
      rfl

/-- C8 witness: the two-fan device reading 73 % on each fan and fixed
memory values: fan gauge 0 holds `73/100 = 0.73` and the free-memory gauge
holds the raw `1000` bytes. -/
theorem C8_witness :
    alGet ((mdC8.update emptyRegistry).1).gauges (fanKey mdC8 0) =
      some ((73 : Rat) / 100)
    ∧ alGet ((mdC8.update emptyRegistry).1).intGauges (memFreeKey mdC8) =
      some (1000 : Int) := by
  have h := C8_pass_contents mdC8 1000 2000 3000 55 120000 250000 98765 2
    PerformanceState.Two (fun _ => 73) rfl (by decide) (by decide) (by decide)
    (fun i _ => rfl) rfl rfl rfl rfl rfl (by decide) rfl (by decide)
  exact ⟨h.2.1 0 (by decide), h.2.2.2.2.1⟩

end NvmlExporter
